import Mathlib

/-!
Verification development for the SARIF normalization engine of the DM-base
repository (`src/lib/normalize-sarif.ts`).  The definitions below are a
shallow embedding of that TypeScript module: JavaScript objects become Lean
structures, `Map`/`Set`/plain-object lookups become association lists with
the exact JavaScript insertion/overwrite semantics, optional (possibly
`undefined`) values become `Option`, and the Node `crypto` SHA-256 digest is
implemented directly over byte lists.
-/

namespace Sarif

/-! ## Generic JSON values (for the untyped `properties` bags) -/

/-- A structured JSON-like value, used for the untyped `properties` bags and
for inputs to the schema validator.  Numbers are modelled as integers (the
fields the engine reads numerically — `ruleIndex`, region bounds — are
integral in SARIF). -/
inductive Json where
  | null : Json
  | bool (b : Bool) : Json
  | num (n : Int) : Json
  | str (s : String) : Json
  | arr (items : List Json) : Json
  | obj (fields : List (String × Json)) : Json

/-- JavaScript-style property lookup on an object-as-association-list:
the first binding of the key wins (JSON objects have unique keys). -/
def objGet (fields : List (String × Json)) (key : String) : Option Json :=
  match fields.find? (fun f => f.1 = key) with
  | some f => some f.2
  | none => none

/-- Lookup in a string-valued record (`fingerprints`, `partialFingerprints`). -/
def recGet (fields : List (String × String)) (key : String) : Option String :=
  match fields.find? (fun f => f.1 = key) with
  | some f => some f.2
  | none => none

/-- The string `typeof`-style description of a JSON value, used in
validation issue messages. -/
def jsType : Json → String
  | .null => "null"
  | .bool _ => "boolean"
  | .num _ => "number"
  | .str _ => "string"
  | .arr _ => "array"
  | .obj _ => "object"

/-! ## JavaScript `Map` and `Set` semantics -/

/-- The `Map.prototype.set`: if the key is already present its value is
replaced in place (the key keeps its original insertion position),
otherwise the binding is appended. -/
def mapSet {α : Type} (m : List (String × α)) (key : String) (value : α) :
    List (String × α) :=
  if m.any (fun e => e.1 = key) then
    m.map (fun e => if e.1 = key then (key, value) else e)
  else
    m ++ [(key, value)]

/-- The `Map.prototype.has`. -/
def mapHas {α : Type} (m : List (String × α)) (key : String) : Bool :=
  m.any (fun e => e.1 = key)

/-- The `Map.prototype.get` (returning `undefined` as `none`). -/
def mapGet {α : Type} (m : List (String × α)) (key : String) : Option α :=
  match m.find? (fun e => e.1 = key) with
  | some e => some e.2
  | none => none

/-- The `Set.prototype.add` on a string set represented in insertion order. -/
def setAdd (s : List String) (x : String) : List String :=
  if s.contains x then s else s ++ [x]

/-- The `Array.from(new Set(xs))`: deduplicate keeping the first occurrence of
each element, preserving insertion order. -/
def dedupFirst (xs : List String) : List String :=
  xs.foldl setAdd []

/-- The `forEach((x, i) => ...)` collecting one output per element: map with the
element index, starting from `start`. -/
def mapIdxFrom {α β : Type} (f : Nat → α → β) : Nat → List α → List β
  | _, [] => []
  | i, a :: as => f i a :: mapIdxFrom f (i + 1) as

/-! ## SHA-256 (the `createHash("sha256") ... digest("hex")` call) -/

/-- Truncate to a 32-bit word. -/
def w32 (n : Nat) : Nat := n % 4294967296

/-- Right rotation of a 32-bit word. -/
def rotr32 (n x : Nat) : Nat := w32 (Nat.lor (x >>> n) (x <<< (32 - n)))

def bigSigma0 (x : Nat) : Nat := (rotr32 2 x) ^^^ (rotr32 13 x) ^^^ (rotr32 22 x)

def bigSigma1 (x : Nat) : Nat := (rotr32 6 x) ^^^ (rotr32 11 x) ^^^ (rotr32 25 x)

def smallSigma0 (x : Nat) : Nat := (rotr32 7 x) ^^^ (rotr32 18 x) ^^^ (x >>> 3)

def smallSigma1 (x : Nat) : Nat := (rotr32 17 x) ^^^ (rotr32 19 x) ^^^ (x >>> 10)

def ch32 (x y z : Nat) : Nat := (x &&& y) ^^^ ((x ^^^ 4294967295) &&& z)

def maj32 (x y z : Nat) : Nat := (x &&& y) ^^^ (x &&& z) ^^^ (y &&& z)

/-- The SHA-256 round constants (decimal renderings of the standard
words, index order as in FIPS 180-4). -/
def sha256K : List Nat :=
  [1116352408, 1899447441, 3049323471, 3921009573, 961987163,
   1508970993, 2453635748, 2870763221, 3624381080, 310598401,
   607225278, 1426881987, 1925078388, 2162078206, 2614888103,
   3248222580, 3835390401, 4022224774, 264347078, 604807628,
   770255983, 1249150122, 1555081692, 1996064986, 2554220882,
   2821834349, 2952996808, 3210313671, 3336571891, 3584528711,
   113926993, 338241895, 666307205, 773529912, 1294757372,
   1396182291, 1695183700, 1986661051, 2177026350, 2456956037,
   2730485921, 2820302411, 3259730800, 3345764771, 3516065817,
   3600352804, 4094571909, 275423344, 430227734, 506948616,
   659060556, 883997877, 958139571, 1322822218, 1537002063,
   1747873779, 1955562222, 2024104815, 2227730452, 2361852424,
   2428436474, 2756734187, 3204031479, 3329325298]

/-- The SHA-256 initial hash state (decimal renderings). -/
def sha256H0 : List Nat :=
  [1779033703, 3144134277, 1013904242, 2773480762,
   1359893119, 2600822924, 528734635, 1541459225]

/-- One message-schedule extension step appended to the word list. -/
def scheduleStep (acc : List Nat) : List Nat :=
  let t := acc.length
  acc ++ [w32 (smallSigma1 (acc.getD (t - 2) 0) + acc.getD (t - 7) 0 +
    smallSigma0 (acc.getD (t - 15) 0) + acc.getD (t - 16) 0)]

/-- Extend 16 block words into the 64-entry message schedule. -/
def sha256Schedule (ws : List Nat) : List Nat :=
  (List.range 48).foldl (fun acc _ => scheduleStep acc) ws

/-- One SHA-256 compression round over the working state. -/
def sha256Round (s : Nat × Nat × Nat × Nat × Nat × Nat × Nat × Nat)
    (kw : Nat × Nat) : Nat × Nat × Nat × Nat × Nat × Nat × Nat × Nat :=
  match s, kw with
  | (a, b, c, d, e, f, g, h), (k, w) =>
    let t1 := w32 (h + bigSigma1 e + ch32 e f g + k + w)
    let t2 := w32 (bigSigma0 a + maj32 a b c)
    (w32 (t1 + t2), a, b, c, w32 (d + t1), e, f, g)

/-- Compress one 64-byte block into the running 8-word state. -/
def sha256CompressBlock (h : List Nat) (block : List Nat) : List Nat :=
  let ws0 := (List.range 16).map fun i =>
    (block.getD (4 * i) 0) <<< 24 + (block.getD (4 * i + 1) 0) <<< 16 +
    (block.getD (4 * i + 2) 0) <<< 8 + block.getD (4 * i + 3) 0
  let ws := sha256Schedule ws0
  let init := (h.getD 0 0, h.getD 1 0, h.getD 2 0, h.getD 3 0,
    h.getD 4 0, h.getD 5 0, h.getD 6 0, h.getD 7 0)
  match (sha256K.zip ws).foldl sha256Round init with
  | (a, b, c, d, e, f, g, hh) =>
    [w32 (h.getD 0 0 + a), w32 (h.getD 1 0 + b), w32 (h.getD 2 0 + c),
     w32 (h.getD 3 0 + d), w32 (h.getD 4 0 + e), w32 (h.getD 5 0 + f),
     w32 (h.getD 6 0 + g), w32 (h.getD 7 0 + hh)]

/-- The 8-byte big-endian rendering of a length-in-bits. -/
def beBytes8 (n : Nat) : List Nat :=
  [(n >>> 56) % 256, (n >>> 48) % 256, (n >>> 40) % 256, (n >>> 32) % 256,
   (n >>> 24) % 256, (n >>> 16) % 256, (n >>> 8) % 256, n % 256]

/-- SHA-256 message padding: `0x80`, zeros to 56 mod 64, then the 64-bit
big-endian bit length. -/
def sha256Pad (msg : List Nat) : List Nat :=
  msg ++ 0x80 :: List.replicate ((119 - msg.length % 64) % 64) 0 ++
    beBytes8 (msg.length * 8)

/-- The SHA-256 digest (8 words) of a byte list. -/
def sha256 (msg : List Nat) : List Nat :=
  let padded := sha256Pad msg
  let blocks := (List.range (padded.length / 64)).map fun i =>
    (padded.drop (64 * i)).take 64
  blocks.foldl sha256CompressBlock sha256H0

def hexDigits : List Char :=
  "0123456789abcdef".data

/-- Lower-case hex rendering of one 32-bit word. -/
def wordHex (w : Nat) : List Char :=
  (List.range 8).map fun i => hexDigits.getD ((w >>> (4 * (7 - i))) % 16) '0'

/-- Lower-case hex rendering of a SHA-256 digest of a byte list. -/
def sha256Hex (msg : List Nat) : String :=
  ⟨((sha256 msg).map wordHex).flatten⟩

/-- UTF-8 encoding of one character. -/
def utf8EncodeChar (c : Char) : List Nat :=
  let n := c.toNat
  if n < 128 then [n]
  else if n < 2048 then [192 + n / 64, 128 + n % 64]
  else if n < 65536 then [224 + n / 4096, 128 + (n / 64) % 64, 128 + n % 64]
  else [240 + n / 262144, 128 + (n / 4096) % 64, 128 + (n / 64) % 64, 128 + n % 64]

/-- UTF-8 encoding of a string as a byte list. -/
def utf8Bytes (s : String) : List Nat :=
  s.data.flatMap utf8EncodeChar

/-- The `createHash("sha256").update(s).digest("hex")`: the lower-case hex
SHA-256 digest of the UTF-8 bytes of `s`. -/
def sha256HexOfString (s : String) : String :=
  sha256Hex (utf8Bytes s)

/-! ## The validated SARIF data model (after `SarifSchema.safeParse`) -/

/-- The `MessageSchema`: `{ text?, markdown? }`. -/
structure Message where
  text : Option String
  markdown : Option String

/-- The `SnippetSchema`: `{ text? }`. -/
structure Snippet where
  text : Option String

/-- The `RegionSchema`. -/
structure Region where
  startLine : Option Int
  startColumn : Option Int
  endLine : Option Int
  endColumn : Option Int
  snippet : Option Snippet

/-- The `ArtifactLocationSchema`. -/
structure ArtifactLocation where
  uri : Option String
  uriBaseId : Option String

/-- The `PhysicalLocationSchema`. -/
structure PhysicalLocation where
  artifactLocation : Option ArtifactLocation
  region : Option Region

/-- The `LocationSchema`. -/
structure SarifLocation where
  physicalLocation : Option PhysicalLocation
  message : Option Message

/-- The `FixSchema`: `{ description? }`. -/
structure SarifFix where
  description : Option Message

/-- The `defaultConfiguration` inside `RuleSchema`. -/
structure DefaultConfiguration where
  level : Option String
  severity : Option String

/-- The `RuleSchema` (the `id` field is required by the schema). -/
structure Rule where
  id : String
  name : Option String
  shortDescription : Option Message
  fullDescription : Option Message
  help : Option Message
  helpUri : Option String
  properties : Option (List (String × Json))
  defaultConfiguration : Option DefaultConfiguration

/-- The `ResultSchema` (only `message` is required). -/
structure SarifResult where
  ruleId : Option String
  ruleIndex : Option Int
  message : Message
  level : Option String
  kind : Option String
  baselineState : Option String
  locations : Option (List SarifLocation)
  relatedLocations : Option (List SarifLocation)
  fixes : Option (List SarifFix)
  fingerprints : Option (List (String × String))
  partialFingerprints : Option (List (String × String))
  properties : Option (List (String × Json))
  id : Option String
  guid : Option String

/-- The `DriverSchema` (the `name` field is required). -/
structure Driver where
  name : String
  fullName : Option String
  semanticVersion : Option String
  version : Option String
  organization : Option String
  informationUri : Option String
  rules : Option (List Rule)

/-- The `ToolSchema` (the `driver` field is required). -/
structure Tool where
  driver : Driver

/-- The `automationDetails` inside `RunSchema`. -/
structure AutomationDetails where
  id : Option String
  guid : Option String

/-- The `RunSchema` (`tool` required; `results` defaults to `[]`). -/
structure Run where
  tool : Tool
  automationDetails : Option AutomationDetails
  results : List SarifResult

/-- The `SarifSchema`: `version` and `runs` are required. -/
structure SarifLog where
  version : String
  runs : List Run

/-! ## The normalized output model -/

/-- The nine canonical severities (`NormalizedSeverity`), as the string
values the engine works with. -/
def allowedSeverities : List String :=
  ["error", "warning", "note", "none", "pass", "open", "review",
   "informational", "unknown"]

/-- The `NormalizedFindingLocation`. -/
structure NormalizedFindingLocation where
  file : Option String
  uriBaseId : Option String
  startLine : Option Int
  startColumn : Option Int
  endLine : Option Int
  endColumn : Option Int
  snippet : Option String

/-- The `tool` summary embedded in each finding. -/
structure ToolSummary where
  name : String
  version : Option String
  informationUri : Option String

/-- The `NormalizedFinding`. -/
structure NormalizedFinding where
  id : String
  ruleId : String
  ruleName : Option String
  ruleDescription : Option String
  severity : String
  message : String
  tool : ToolSummary
  location : Option NormalizedFindingLocation
  remediation : Option String
  helpUrl : Option String
  tags : List String
  partialFingerprints : List (String × String)
  fingerprints : List (String × String)
  properties : List (String × Json)
  dedupeKey : String
  rawResult : SarifResult

/-- The `Record<NormalizedSeverity, number>`: the nine per-severity counters. -/
structure SeverityStats where
  error : Nat
  warning : Nat
  note : Nat
  none : Nat
  pass : Nat
  «open» : Nat
  review : Nat
  informational : Nat
  unknown : Nat

/-- The all-zero initial counters of `normalizeSarif`. -/
def initialSeverityStats : SeverityStats :=
  ⟨0, 0, 0, 0, 0, 0, 0, 0, 0⟩

/-- The `severityStats[severity] += 1` (the severity is always one of the nine
canonical strings when this is called). -/
def SeverityStats.incr (s : SeverityStats) (sev : String) : SeverityStats :=
  if sev = "error" then { s with error := s.error + 1 }
  else if sev = "warning" then { s with warning := s.warning + 1 }
  else if sev = "note" then { s with note := s.note + 1 }
  else if sev = "none" then { s with none := s.none + 1 }
  else if sev = "pass" then { s with pass := s.pass + 1 }
  else if sev = "open" then { s with «open» := s.«open» + 1 }
  else if sev = "review" then { s with review := s.review + 1 }
  else if sev = "informational" then { s with informational := s.informational + 1 }
  else if sev = "unknown" then { s with unknown := s.unknown + 1 }
  else s

/-- The sum of all nine counters. -/
def SeverityStats.total (s : SeverityStats) : Nat :=
  s.error + s.warning + s.note + s.none + s.pass + s.«open» + s.review +
    s.informational + s.unknown

/-- The `stats` of `NormalizedSarif`. -/
structure Stats where
  totalFindings : Nat
  bySeverity : SeverityStats

/-- The `metadata` of `NormalizedSarif`. -/
structure Metadata where
  sarifVersion : String
  toolNames : List String
  uploadedAt : String
  fileName : Option String

/-- The `NormalizedSarif`. -/
structure NormalizedSarif where
  metadata : Metadata
  stats : Stats
  findings : List NormalizedFinding

/-- The `NormalizeSarifOptions`. -/
structure NormalizeSarifOptions where
  fileName : Option String

/-! ## The normalization engine (`normalize-sarif.ts`) -/

/-- The `buildRuleMap`: fold the run's rules into a JavaScript `Map` keyed by
rule id; a rule with a falsy (empty) id is skipped. -/
def buildRuleMap (rules : List Rule) : List (String × Rule) :=
  rules.foldl (fun m rule => if rule.id ≠ "" then mapSet m rule.id rule else m) []

/-- The `findRuleForResult`: ruleId lookup first (truthy id present in the
map), then the in-range `ruleIndex` positional fallback on the deduped
map's insertion order, else no rule. -/
def findRuleForResult (result : SarifResult) (ruleMap : List (String × Rule)) :
    Option Rule :=
  if (match result.ruleId with
      | some rid => rid ≠ "" && mapHas ruleMap rid
      | none => false) then
    mapGet ruleMap ((result.ruleId).getD "")
  else
    match result.ruleIndex with
    | some i =>
        if 0 ≤ i ∧ i < (ruleMap.length : Int) then
          (ruleMap.get? i.toNat).map (fun e => e.2)
        else
          Option.none
    | none => Option.none

/-- The `toLowerCase()` on a string, character by character (ASCII range, as
`Char.toLower` maps only `A`–`Z`); implemented over the character list so
that it evaluates inside the kernel. -/
def strToLower (s : String) : String :=
  ⟨s.data.map Char.toLower⟩

/-- The `normalizeSeverity`: lower-case the level (defaulted to "unknown") and
force anything outside the nine canonical severities to "unknown". -/
def normalizeSeverity (level : Option String) : String :=
  let normalized := strToLower (level.getD "unknown")
  if allowedSeverities.contains normalized then normalized else "unknown"

/-- The `pickMessage`: `message.text ?? message.markdown ?? ""` (and `""` for a
missing message object). -/
def pickMessage (message : Option Message) : String :=
  match message with
  | Option.none => ""
  | some m => m.text.getD (m.markdown.getD "")

/-- The `pickLocation`: only the first location's physical location is
surfaced; absent pieces stay absent. -/
def pickLocation (result : SarifResult) : Option NormalizedFindingLocation :=
  match (result.locations.bind List.head?).bind (fun l => l.physicalLocation) with
  | Option.none => Option.none
  | some location =>
      let region := location.region
      some
        { file := location.artifactLocation.bind (fun a => a.uri)
          uriBaseId := location.artifactLocation.bind (fun a => a.uriBaseId)
          startLine := region.bind (fun r => r.startLine)
          startColumn := region.bind (fun r => r.startColumn)
          endLine := region.bind (fun r => r.endLine)
          endColumn := region.bind (fun r => r.endColumn)
          snippet := (region.bind (fun r => r.snippet)).bind (fun s => s.text) }

/-- The `pickRemediation`: the first fix's description (text-then-markdown) if
non-empty, else the rule's help message (text-then-markdown) if non-empty,
else absent. -/
def pickRemediation (result : SarifResult) (rule : Option Rule) : Option String :=
  let fromFix := pickMessage ((result.fixes.bind List.head?).bind (fun f => f.description))
  if fromFix ≠ "" then some fromFix
  else
    let fromRule := pickMessage (rule.bind (fun r => r.help))
    if fromRule ≠ "" then some fromRule else Option.none

/-- The `extractTags`: an array keeps only its string elements, a bare string
is a singleton, anything else is empty. -/
def extractTags (source : Option Json) : List String :=
  match source with
  | some (.arr items) =>
      items.filterMap (fun j => match j with | .str s => some s | _ => Option.none)
  | some (.str s) => [s]
  | _ => []

/-- One escaped character of `JSON.stringify` string output. -/
def jsonEscapeChar (c : Char) : List Char :=
  if c = '"' then ['\\', '"']
  else if c = '\\' then ['\\', '\\']
  else if c = '\x08' then ['\\', 'b']
  else if c = '\t' then ['\\', 't']
  else if c = '\n' then ['\\', 'n']
  else if c = '\x0c' then ['\\', 'f']
  else if c = '\r' then ['\\', 'r']
  else if c.toNat < 32 then
    ['\\', 'u', '0', '0', hexDigits.getD (c.toNat / 16) '0',
     hexDigits.getD (c.toNat % 16) '0']
  else [c]

/-- The `JSON.stringify` of a string value. -/
def jsonEncodeString (s : String) : String :=
  ⟨'"' :: s.data.flatMap jsonEscapeChar ++ ['"']⟩

/-- The `JSON.stringify` of an array of strings. -/
def jsonStringifyStrings (xs : List String) : String :=
  "[" ++ String.intercalate "," (xs.map jsonEncodeString) ++ "]"

/-- The `String(x ?? "")` for an optional integer. -/
def strOfOptInt (x : Option Int) : String :=
  match x with
  | some n => toString n
  | Option.none => ""

/-- The input record of `buildDedupeKey`. -/
structure DedupeInput where
  result : SarifResult
  message : String
  location : Option NormalizedFindingLocation
  severity : String
  partialFingerprints : List (String × String)

/-- The candidate fingerprint list of `buildDedupeKey`: the four lookups in
priority order, with falsy (absent or empty) values filtered out. -/
def candidateFingerprints (input : DedupeInput) : List String :=
  ([recGet input.partialFingerprints "primaryLocationFingerprint",
    recGet input.partialFingerprints "primaryLocationFingerprint/v2",
    recGet (input.result.fingerprints.getD []) "primaryLocationFingerprint",
    recGet (input.result.fingerprints.getD []) "primaryLocationFingerprint/v2"].filterMap id).filter
    (fun s => s ≠ "")

/-- The `buildDedupeKey`: SHA-256 over the `"::"`-joined parts. -/
def buildDedupeKey (input : DedupeInput) : String :=
  let fingerprintPayload := jsonStringifyStrings (candidateFingerprints input)
  let parts : List String :=
    [input.result.ruleId.getD "unknown",
     input.severity,
     input.message,
     (input.location.bind (fun l => l.file)).getD "",
     strOfOptInt (input.location.bind (fun l => l.startLine)),
     strOfOptInt (input.location.bind (fun l => l.startColumn)),
     fingerprintPayload]
  sha256HexOfString (String.intercalate "::" parts)

/-- The severity input chain:
`result.level ?? rule?.defaultConfiguration?.level ??
rule?.defaultConfiguration?.severity ?? "unknown"`. -/
def severityInput (result : SarifResult) (rule : Option Rule) : String :=
  result.level.getD
    (((rule.bind (fun r => r.defaultConfiguration)).bind (fun d => d.level)).getD
      (((rule.bind (fun r => r.defaultConfiguration)).bind (fun d => d.severity)).getD
        "unknown"))

/-- The synthesized finding id
`` `${runIndex}-${resultIndex}-${result.ruleId ?? "unknown"}` ``. -/
def synthFindingId (runIndex resultIndex : Nat) (rid : String) : String :=
  Nat.repr runIndex ++ "-" ++ Nat.repr resultIndex ++ "-" ++ rid

/-- The body of the per-result `forEach` of `normalizeSarif`: build one
normalized finding. -/
def mkFinding (runIndex : Nat) (driver : Driver) (ruleMap : List (String × Rule))
    (resultIndex : Nat) (result : SarifResult) : NormalizedFinding :=
  let rule := findRuleForResult result ruleMap
  let severity := normalizeSeverity (some (severityInput result rule))
  let message := pickMessage (some result.message)
  let location := pickLocation result
  let remediation := pickRemediation result rule
  let tags := dedupFirst
    (extractTags (result.properties.bind (fun p => objGet p "tags")) ++
     extractTags ((rule.bind (fun r => r.properties)).bind (fun p => objGet p "tags")))
  let partialFingerprints := result.partialFingerprints.getD []
  let dedupeKey := buildDedupeKey
    { result := result, message := message, location := location,
      severity := severity, partialFingerprints := partialFingerprints }
  { id := result.id.getD (result.guid.getD
      (synthFindingId runIndex resultIndex (result.ruleId.getD "unknown")))
    ruleId := (rule.map (fun r => r.id)).getD (result.ruleId.getD "unknown")
    ruleName := rule.bind (fun r => r.name)
    ruleDescription :=
      ((rule.bind (fun r => r.shortDescription)).bind (fun m => m.text)).orElse fun _ =>
        ((rule.bind (fun r => r.shortDescription)).bind (fun m => m.markdown)).orElse fun _ =>
          ((rule.bind (fun r => r.fullDescription)).bind (fun m => m.text)).orElse fun _ =>
            (rule.bind (fun r => r.fullDescription)).bind (fun m => m.markdown)
    severity := severity
    message := message
    tool :=
      -- `driver?.name ?? "unknown"`: the driver and its name are required
      -- by the schema, so the nullish fallback can never fire.
      { name := driver.name
        version := driver.semanticVersion.orElse (fun _ => driver.version)
        informationUri := driver.informationUri }
    location := location
    remediation := remediation
    helpUrl := rule.bind (fun r => r.helpUri)
    tags := tags
    partialFingerprints := partialFingerprints
    fingerprints := result.fingerprints.getD []
    properties := result.properties.getD []
    dedupeKey := dedupeKey
    rawResult := result }

/-- The findings pushed while processing one run. -/
def findingsOfRun (runIndex : Nat) (run : Run) : List NormalizedFinding :=
  let driver := run.tool.driver
  let ruleMap := buildRuleMap (driver.rules.getD [])
  mapIdxFrom (fun resultIndex result => mkFinding runIndex driver ruleMap resultIndex result)
    0 run.results

/-- The full findings sequence: runs in document order, results in order
within each run. -/
def findingsOfLog (log : SarifLog) : List NormalizedFinding :=
  (mapIdxFrom findingsOfRun 0 log.runs).flatten

/-- The document-wide distinct tool-name set in insertion order (a falsy,
i.e. empty, driver name is not registered). -/
def toolNamesOfLog (log : SarifLog) : List String :=
  log.runs.foldl
    (fun acc run =>
      if run.tool.driver.name ≠ "" then setAdd acc run.tool.driver.name else acc)
    []

/-- The accumulated per-severity counters. -/
def severityStatsOfLog (log : SarifLog) : SeverityStats :=
  (findingsOfLog log).foldl (fun st f => st.incr f.severity) initialSeverityStats

/-- The pure part of `normalizeSarif` on a validated log; `now` is the
`new Date().toISOString()` instant. -/
def normalizeLog (log : SarifLog) (options : NormalizeSarifOptions) (now : String) :
    NormalizedSarif :=
  let findings := findingsOfLog log
  { metadata :=
      { sarifVersion := log.version
        toolNames := toolNamesOfLog log
        uploadedAt := now
        fileName := options.fileName }
    stats :=
      { totalFindings := findings.length
        bySeverity := severityStatsOfLog log }
    findings := findings }

/-! ## The schema validator (`SarifSchema.safeParse`) -/

/-- One validation issue: a field path (array indices rendered in decimal)
and a message, as produced by the schema library. -/
structure Issue where
  path : List String
  message : String
deriving DecidableEq

/-- Validation outcome: either the parsed value or all collected issues. -/
def Validated (α : Type) : Type := Except (List Issue) α

/-- The `Except.ok` specialised to `Validated`. -/
def vOk {α : Type} (a : α) : Validated α := Except.ok a

/-- A single-issue failure. -/
def vFail {α : Type} (path : List String) (message : String) : Validated α :=
  Except.error [⟨path, message⟩]

/-- Applicative composition accumulating issues from both sides, left
first (the schema library collects every issue, in declaration order). -/
def vSeq {α β : Type} (f : Validated (α → β)) (a : Validated α) : Validated β :=
  match f, a with
  | Except.ok f, Except.ok a => Except.ok (f a)
  | Except.error e, Except.ok _ => Except.error e
  | Except.ok _, Except.error e => Except.error e
  | Except.error e₁, Except.error e₂ => Except.error (e₁ ++ e₂)

/-- The `z.string()`. -/
def vString (path : List String) (j : Json) : Validated String :=
  match j with
  | .str s => vOk s
  | _ => vFail path ("Expected string, received " ++ jsType j)

/-- The `z.number()` (numbers are modelled as integers). -/
def vNumber (path : List String) (j : Json) : Validated Int :=
  match j with
  | .num n => vOk n
  | _ => vFail path ("Expected number, received " ++ jsType j)

/-- An optional field of an object: a missing key parses to `none`. -/
def vOptField {α : Type} (fields : List (String × Json)) (path : List String)
    (key : String) (sub : List String → Json → Validated α) :
    Validated (Option α) :=
  match objGet fields key with
  | Option.none => vOk Option.none
  | some j => (sub (path ++ [key]) j).map some

/-- A required field of an object: a missing key is a `Required` issue. -/
def vReqField {α : Type} (fields : List (String × Json)) (path : List String)
    (key : String) (sub : List String → Json → Validated α) : Validated α :=
  match objGet fields key with
  | Option.none => vFail (path ++ [key]) "Required"
  | some j => sub (path ++ [key]) j

/-- A field with a default: a missing key parses to the default. -/
def vDefField {α : Type} (fields : List (String × Json)) (path : List String)
    (key : String) (dflt : α) (sub : List String → Json → Validated α) :
    Validated α :=
  match objGet fields key with
  | Option.none => vOk dflt
  | some j => sub (path ++ [key]) j

/-- The `z.array(S)`: element issues carry the element index in their path. -/
def vArray {α : Type} (sub : List String → Json → Validated α)
    (path : List String) (j : Json) : Validated (List α) :=
  match j with
  | .arr items =>
      (mapIdxFrom (fun i item => sub (path ++ [Nat.repr i]) item) 0 items).foldl
        (fun acc v => vSeq (acc.map (fun xs x => xs ++ [x])) v) (vOk [])
  | _ => vFail path ("Expected array, received " ++ jsType j)

/-- The `z.record(z.any())`: any object, kept as-is. -/
def vRecordAny (path : List String) (j : Json) : Validated (List (String × Json)) :=
  match j with
  | .obj fields => vOk fields
  | _ => vFail path ("Expected object, received " ++ jsType j)

/-- The `z.record(z.string())`: an object whose every value is a string. -/
def vRecordString (path : List String) (j : Json) : Validated (List (String × String)) :=
  match j with
  | .obj fields =>
      fields.foldl
        (fun acc f =>
          vSeq (acc.map (fun xs s => xs ++ [(f.1, s)])) (vString (path ++ [f.1]) f.2))
        (vOk [])
  | _ => vFail path ("Expected object, received " ++ jsType j)

/-- The non-object issue shared by every object schema. -/
def vObjFields (path : List String) (j : Json) : Validated (List (String × Json)) :=
  match j with
  | .obj fields => vOk fields
  | _ => vFail path ("Expected object, received " ++ jsType j)

/-- The `MessageSchema`. -/
def vMessage (path : List String) (j : Json) : Validated Message :=
  match vObjFields path j with
  | Except.error e => Except.error e
  | Except.ok fields =>
      vSeq ((vOptField fields path "text" vString).map Message.mk)
        (vOptField fields path "markdown" vString)

/-- The `SnippetSchema`. -/
def vSnippet (path : List String) (j : Json) : Validated Snippet :=
  match vObjFields path j with
  | Except.error e => Except.error e
  | Except.ok fields => (vOptField fields path "text" vString).map Snippet.mk

/-- The `RegionSchema`. -/
def vRegion (path : List String) (j : Json) : Validated Region :=
  match vObjFields path j with
  | Except.error e => Except.error e
  | Except.ok fields =>
      vSeq (vSeq (vSeq (vSeq
        ((vOptField fields path "startLine" vNumber).map Region.mk)
        (vOptField fields path "startColumn" vNumber))
        (vOptField fields path "endLine" vNumber))
        (vOptField fields path "endColumn" vNumber))
        (vOptField fields path "snippet" vSnippet)

/-- The `ArtifactLocationSchema`. -/
def vArtifactLocation (path : List String) (j : Json) : Validated ArtifactLocation :=
  match vObjFields path j with
  | Except.error e => Except.error e
  | Except.ok fields =>
      vSeq ((vOptField fields path "uri" vString).map ArtifactLocation.mk)
        (vOptField fields path "uriBaseId" vString)

/-- The `PhysicalLocationSchema`. -/
def vPhysicalLocation (path : List String) (j : Json) : Validated PhysicalLocation :=
  match vObjFields path j with
  | Except.error e => Except.error e
  | Except.ok fields =>
      vSeq ((vOptField fields path "artifactLocation" vArtifactLocation).map
          PhysicalLocation.mk)
        (vOptField fields path "region" vRegion)

/-- The `LocationSchema`. -/
def vLocation (path : List String) (j : Json) : Validated SarifLocation :=
  match vObjFields path j with
  | Except.error e => Except.error e
  | Except.ok fields =>
      vSeq ((vOptField fields path "physicalLocation" vPhysicalLocation).map
          SarifLocation.mk)
        (vOptField fields path "message" vMessage)

/-- The `FixSchema`. -/
def vFix (path : List String) (j : Json) : Validated SarifFix :=
  match vObjFields path j with
  | Except.error e => Except.error e
  | Except.ok fields =>
      (vOptField fields path "description" vMessage).map SarifFix.mk

/-- The `defaultConfiguration` object schema. -/
def vDefaultConfiguration (path : List String) (j : Json) :
    Validated DefaultConfiguration :=
  match vObjFields path j with
  | Except.error e => Except.error e
  | Except.ok fields =>
      vSeq ((vOptField fields path "level" vString).map DefaultConfiguration.mk)
        (vOptField fields path "severity" vString)

/-- The `RuleSchema`. -/
def vRule (path : List String) (j : Json) : Validated Rule :=
  match vObjFields path j with
  | Except.error e => Except.error e
  | Except.ok fields =>
      vSeq (vSeq (vSeq (vSeq (vSeq (vSeq (vSeq
        ((vReqField fields path "id" vString).map Rule.mk)
        (vOptField fields path "name" vString))
        (vOptField fields path "shortDescription" vMessage))
        (vOptField fields path "fullDescription" vMessage))
        (vOptField fields path "help" vMessage))
        (vOptField fields path "helpUri" vString))
        (vOptField fields path "properties" vRecordAny))
        (vOptField fields path "defaultConfiguration" vDefaultConfiguration)

/-- The `ResultSchema`. -/
def vResult (path : List String) (j : Json) : Validated SarifResult :=
  match vObjFields path j with
  | Except.error e => Except.error e
  | Except.ok fields =>
      vSeq (vSeq (vSeq (vSeq (vSeq (vSeq (vSeq (vSeq (vSeq (vSeq (vSeq (vSeq (vSeq
        ((vOptField fields path "ruleId" vString).map SarifResult.mk)
        (vOptField fields path "ruleIndex" vNumber))
        (vReqField fields path "message" vMessage))
        (vOptField fields path "level" vString))
        (vOptField fields path "kind" vString))
        (vOptField fields path "baselineState" vString))
        (vOptField fields path "locations" (vArray vLocation)))
        (vOptField fields path "relatedLocations" (vArray vLocation)))
        (vOptField fields path "fixes" (vArray vFix)))
        (vOptField fields path "fingerprints" vRecordString))
        (vOptField fields path "partialFingerprints" vRecordString))
        (vOptField fields path "properties" vRecordAny))
        (vOptField fields path "id" vString))
        (vOptField fields path "guid" vString)

/-- The `DriverSchema`. -/
def vDriver (path : List String) (j : Json) : Validated Driver :=
  match vObjFields path j with
  | Except.error e => Except.error e
  | Except.ok fields =>
      vSeq (vSeq (vSeq (vSeq (vSeq (vSeq
        ((vReqField fields path "name" vString).map Driver.mk)
        (vOptField fields path "fullName" vString))
        (vOptField fields path "semanticVersion" vString))
        (vOptField fields path "version" vString))
        (vOptField fields path "organization" vString))
        (vOptField fields path "informationUri" vString))
        (vOptField fields path "rules" (vArray vRule))

/-- The `ToolSchema`. -/
def vTool (path : List String) (j : Json) : Validated Tool :=
  match vObjFields path j with
  | Except.error e => Except.error e
  | Except.ok fields => (vReqField fields path "driver" vDriver).map Tool.mk

/-- The `automationDetails` object schema. -/
def vAutomationDetails (path : List String) (j : Json) : Validated AutomationDetails :=
  match vObjFields path j with
  | Except.error e => Except.error e
  | Except.ok fields =>
      vSeq ((vOptField fields path "id" vString).map AutomationDetails.mk)
        (vOptField fields path "guid" vString)

/-- The `RunSchema` (with `results` defaulting to `[]`). -/
def vRun (path : List String) (j : Json) : Validated Run :=
  match vObjFields path j with
  | Except.error e => Except.error e
  | Except.ok fields =>
      vSeq (vSeq
        ((vReqField fields path "tool" vTool).map Run.mk)
        (vOptField fields path "automationDetails" vAutomationDetails))
        (vDefField fields path "results" [] (vArray vResult))

/-- The `SarifSchema.safeParse` on a structured value. -/
def validateSarif (j : Json) : Validated SarifLog :=
  match vObjFields [] j with
  | Except.error e => Except.error e
  | Except.ok fields =>
      vSeq ((vReqField fields [] "version" vString).map SarifLog.mk)
        (vReqField fields [] "runs" (vArray vRun))

/-! ## `parseSarif` and `normalizeSarif` -/

/-- The input of `parseSarif`.  A text input carries the outcome of the
platform `JSON.parse` call on it — that call is external to the repository
(the Node runtime), so its result is part of the modelled input: `.error`
holds the `SyntaxError` message it would throw. -/
inductive ParseInput where
  | nullInput : ParseInput
  | text (s : String) (parsed : Except String Json) : ParseInput
  | value (j : Json) : ParseInput

/-- The three failure kinds of `parseSarif`, one per `throw` site: the
empty-payload guard, the propagated `JSON.parse` `SyntaxError`, and the
schema-validation failure. -/
inductive ParseError where
  | payloadMissing : ParseError
  | jsonSyntax (msg : String) : ParseError
  | schemaInvalid (issues : List Issue) : ParseError
deriving DecidableEq

/-- One issue rendered as in the error string: the dot-joined path
(`<root>` when empty) followed by the issue message. -/
def formatIssue (i : Issue) : String :=
  (if i.path.isEmpty then "<root>" else String.intercalate "." i.path) ++ " " ++
    i.message

/-- The human-readable message of each failure kind. -/
def errorMessage : ParseError → String
  | .payloadMissing => "SARIF payload отсутствует"
  | .jsonSyntax msg => msg
  | .schemaInvalid issues =>
      "SARIF формат невалиден: " ++
        String.intercalate ", " (issues.map formatIssue)

/-- A discriminator for the three failure kinds: distinct kinds map to
distinct indices. -/
def errKindIndex : ParseError → Nat
  | .payloadMissing => 0
  | .jsonSyntax _ => 1
  | .schemaInvalid _ => 2

/-- The `parseSarif`: reject a missing payload, deserialize text (propagating
the parser's failure), validate against the schema. -/
def parseSarif : ParseInput → Except ParseError SarifLog
  | .nullInput => Except.error ParseError.payloadMissing
  | .text _ (Except.error msg) => Except.error (ParseError.jsonSyntax msg)
  | .text _ (Except.ok j) =>
      match validateSarif j with
      | Except.ok log => Except.ok log
      | Except.error issues => Except.error (ParseError.schemaInvalid issues)
  | .value j =>
      match validateSarif j with
      | Except.ok log => Except.ok log
      | Except.error issues => Except.error (ParseError.schemaInvalid issues)

/-- The `normalizeSarif`: parse (propagating failures unchanged), then
normalize; `now` is the `new Date().toISOString()` instant. -/
def normalizeSarif (input : ParseInput) (options : NormalizeSarifOptions)
    (now : String) : Except ParseError NormalizedSarif :=
  (parseSarif input).map (fun log => normalizeLog log options now)

/-! ## Reference definitions used only in proofs -/

/-- The decimal digit characters of `n`, most significant first: a
structurally convenient restatement of `Nat.toDigits 10`. -/
def decDigits (n : Nat) : List Char :=
  if _h : n < 10 then [Nat.digitChar n]
  else decDigits (n / 10) ++ [Nat.digitChar (n % 10)]
  decreasing_by exact Nat.div_lt_self (by omega) (by omega)

/-- The numeric value of a decimal digit character. -/
def charVal (c : Char) : Nat := c.toNat - 48

/-- The numeric value of a decimal digit string. -/
def decVal (l : List Char) : Nat := l.foldl (fun a c => a * 10 + charVal c) 0

/-! ## Concrete documents used in witnesses and counterexamples -/

/-- A result with every optional field absent and an empty message. -/
def baseResult : SarifResult :=
  { ruleId := Option.none, ruleIndex := Option.none
    message := { text := Option.none, markdown := Option.none }
    level := Option.none, kind := Option.none, baselineState := Option.none
    locations := Option.none, relatedLocations := Option.none
    fixes := Option.none, fingerprints := Option.none
    partialFingerprints := Option.none, properties := Option.none
    id := Option.none, guid := Option.none }

/-- A rule with only an id. -/
def baseRule (id : String) : Rule :=
  { id := id, name := Option.none, shortDescription := Option.none
    fullDescription := Option.none, help := Option.none, helpUri := Option.none
    properties := Option.none, defaultConfiguration := Option.none }

/-- A driver with only a name and a rule list. -/
def baseDriver (name : String) (rules : List Rule) : Driver :=
  { name := name, fullName := Option.none, semanticVersion := Option.none
    version := Option.none, organization := Option.none
    informationUri := Option.none
    rules := if rules.isEmpty then Option.none else some rules }

/-- A run from a driver and results. -/
def baseRun (driver : Driver) (results : List SarifResult) : Run :=
  { tool := { driver := driver }, automationDetails := Option.none
    results := results }

/-- The region `startLine 10` of the spec's end-to-end scenario. -/
def exampleRegion : Region :=
  { startLine := some 10, startColumn := Option.none, endLine := Option.none
    endColumn := Option.none, snippet := Option.none }

/-- The location `src/a.ts:10` of the spec's end-to-end scenario. -/
def exampleLocation : SarifLocation :=
  { physicalLocation := some
      { artifactLocation := some { uri := some "src/a.ts", uriBaseId := Option.none }
        region := some exampleRegion }
    message := Option.none }

/-- The run of the spec's end-to-end scenario: driver `ExampleScanner`,
one rule `RULE1` with default level `warning`, one result referencing it
with message `Found X` at `src/a.ts:10`. -/
def exampleRun : Run :=
  baseRun
    (baseDriver "ExampleScanner"
      [{ baseRule "RULE1" with
          defaultConfiguration :=
            some { level := some "warning", severity := Option.none } }])
    [{ baseResult with
        ruleId := some "RULE1"
        message := { text := some "Found X", markdown := Option.none }
        locations := some [exampleLocation] }]

/-- The spec's end-to-end scenario document. -/
def exampleLog : SarifLog :=
  { version := "2.1.0", runs := [exampleRun] }

/-- A document whose only result resolves its rule purely via `ruleIndex`
(it carries no `ruleId`) and carries an empty-string primary-location
partial fingerprint. -/
def indexLog : SarifLog :=
  { version := "2.1.0"
    runs := [baseRun (baseDriver "T" [baseRule "R1"])
      [{ baseResult with
          ruleIndex := some 0
          partialFingerprints := some [("primaryLocationFingerprint", "")] }]] }

/-- Two rules sharing the id `R` (first named `A`, second named `B`) and a
result referencing that id. -/
def dupRuleA : Rule := { baseRule "R" with name := some "A" }

/-- The second rule with the duplicated id `R`. -/
def dupRuleB : Rule := { baseRule "R" with name := some "B" }

/-- The result referencing the duplicated rule id `R`. -/
def dupResult : SarifResult := { baseResult with ruleId := some "R" }

/-- A document whose single run has an empty-string driver name. -/
def emptyNameLog : SarifLog :=
  { version := "2.1.0", runs := [baseRun (baseDriver "" []) [baseResult]] }

/-- A result carrying both a resolvable `ruleId` and a `ruleIndex`. -/
def precedenceResult : SarifResult :=
  { baseResult with ruleId := some "R", ruleIndex := some 1 }

/-- Two dedupe inputs differing only in the primary-location partial
fingerprint. -/
def fpInput (fp : String) : DedupeInput :=
  { result := baseResult, message := "m", location := Option.none
    severity := "error", partialFingerprints := [("primaryLocationFingerprint", fp)] }

/-- A document with two runs and three id-less, guid-less results, for the
distinct-synthesized-ids witness. -/
def twoRunLog : SarifLog :=
  { version := "2.1.0"
    runs := [baseRun (baseDriver "T1" []) [baseResult, baseResult],
             baseRun (baseDriver "T2" []) [baseResult]] }

/-- The default options value. -/
def noOptions : NormalizeSarifOptions := { fileName := Option.none }

/-! # Lemmas about the helper combinators -/

theorem mapIdxFrom_length {α β : Type} (f : Nat → α → β) :
    ∀ (s : Nat) (l : List α), (mapIdxFrom f s l).length = l.length
  | _, [] => rfl
  | s, _ :: as => by
      simp only [mapIdxFrom, List.length_cons, mapIdxFrom_length f (s + 1) as]

theorem mem_mapIdxFrom {α β : Type} {f : Nat → α → β} {b : β} :
    ∀ {s : Nat} {l : List α},
      b ∈ mapIdxFrom f s l ↔ ∃ i a, l.get? i = some a ∧ b = f (s + i) a := by
  intro s l
  induction l generalizing s with
  | nil => simp [mapIdxFrom]
  | cons a as ih =>
    simp only [mapIdxFrom, List.mem_cons, ih]
    constructor
    · rintro (rfl | ⟨i, x, hx, rfl⟩)
      · exact ⟨0, a, rfl, by simp⟩
      · refine ⟨i + 1, x, hx, ?_⟩
        have harith : s + (i + 1) = s + 1 + i := by omega
        rw [harith]
    · rintro ⟨i, x, hx, rfl⟩
      cases i with
      | zero =>
        left
        simp only [List.get?] at hx
        cases hx
        simp
      | succ i =>
        right
        refine ⟨i, x, hx, ?_⟩
        have harith : s + (i + 1) = s + 1 + i := by omega
        rw [harith]

theorem nodup_mapIdxFrom {α β : Type} {f : Nat → α → β}
    (H : ∀ i j a b, i ≠ j → f i a ≠ f j b) :
    ∀ (s : Nat) (l : List α), (mapIdxFrom f s l).Nodup := by
  intro s l
  induction l generalizing s with
  | nil => exact List.nodup_nil
  | cons a as ih =>
    refine List.nodup_cons.mpr ⟨?_, ih (s + 1)⟩
    intro hmem
    rcases mem_mapIdxFrom.mp hmem with ⟨i, x, _, heq⟩
    exact H s (s + 1 + i) a x (by omega) heq

theorem map_mapIdxFrom {α β γ : Type} (f : Nat → α → β) (g : β → γ) :
    ∀ (s : Nat) (l : List α),
      (mapIdxFrom f s l).map g = mapIdxFrom (fun i a => g (f i a)) s l
  | _, [] => rfl
  | s, _ :: as => by
      simp only [mapIdxFrom, List.map_cons, map_mapIdxFrom f g (s + 1) as]

theorem mapIdxFrom_congr {α β : Type} {f g : Nat → α → β} :
    ∀ (s : Nat) (l : List α), (∀ i a, a ∈ l → f i a = g i a) →
      mapIdxFrom f s l = mapIdxFrom g s l
  | _, [], _ => rfl
  | s, a :: as, h => by
      simp only [mapIdxFrom]
      rw [h s a (List.mem_cons_self a as),
        mapIdxFrom_congr (s + 1) as (fun i x hx => h i x (List.mem_cons_of_mem a hx))]

theorem mapIdxFrom_const {α β : Type} (g : α → β) :
    ∀ (s : Nat) (l : List α), mapIdxFrom (fun _ a => g a) s l = l.map g
  | _, [] => rfl
  | s, _ :: as => by
      simp only [mapIdxFrom, List.map_cons, mapIdxFrom_const g (s + 1) as]

theorem mapIdxFrom_get? {α β : Type} (f : Nat → α → β) :
    ∀ (s : Nat) (l : List α) (i : Nat),
      (mapIdxFrom f s l).get? i = (l.get? i).map (fun a => f (s + i) a)
  | _, [], _ => by simp [mapIdxFrom]
  | _, _ :: _, 0 => by simp [mapIdxFrom]
  | s, a :: as, i + 1 => by
      simp only [mapIdxFrom, List.get?, mapIdxFrom_get? f (s + 1) as i]
      have harith : s + 1 + i = s + (i + 1) := by omega
      rw [harith]

/-! # Lemmas about `Nat.repr` (for the synthesized finding ids) -/

theorem decDigits_eq_toDigitsCore :
    ∀ (fuel n : Nat) (acc : List Char), n < fuel →
      Nat.toDigitsCore 10 fuel n acc = decDigits n ++ acc := by
  intro fuel
  induction fuel with
  | zero => intro n acc h; omega
  | succ fuel ih =>
    intro n acc h
    by_cases hdiv : n / 10 = 0
    · have hlt : n < 10 := by omega
      rw [Nat.toDigitsCore, decDigits]
      simp [hdiv, hlt, Nat.mod_eq_of_lt hlt]
    · have hge : ¬ n < 10 := by omega
      have h2 : n / 10 < n := Nat.div_lt_self (by omega) (by omega)
      have hfuel : n / 10 < fuel := by omega
      rw [Nat.toDigitsCore]
      simp only [hdiv, if_false]
      rw [ih (n / 10) _ hfuel]
      conv_rhs => rw [decDigits]
      simp [hge, List.append_assoc]

theorem repr_data (n : Nat) : (Nat.repr n).data = decDigits n := by
  have h := decDigits_eq_toDigitsCore (n + 1) n [] (by omega)
  simp only [Nat.repr, Nat.toDigits]
  rw [h]
  simp [List.asString]

theorem digitChar_isDigit {m : Nat} (h : m < 10) : (Nat.digitChar m).isDigit = true := by
  interval_cases m <;> rfl

theorem charVal_digitChar {m : Nat} (h : m < 10) : charVal (Nat.digitChar m) = m := by
  interval_cases m <;> rfl

theorem decDigits_isDigit (n : Nat) : ∀ c ∈ decDigits n, c.isDigit = true := by
  induction n using Nat.strong_induction_on with
  | _ n ih =>
    rw [decDigits]
    split
    · intro c hc
      simp only [List.mem_singleton] at hc
      subst hc
      exact digitChar_isDigit (by omega)
    · intro c hc
      rcases List.mem_append.mp hc with h | h
      · exact ih (n / 10) (Nat.div_lt_self (by omega) (by omega)) c h
      · simp only [List.mem_singleton] at h
        subst h
        exact digitChar_isDigit (Nat.mod_lt _ (by omega))

theorem decVal_append_one (l : List Char) (c : Char) :
    decVal (l ++ [c]) = decVal l * 10 + charVal c := by
  simp [decVal, List.foldl_append]

theorem decVal_decDigits (n : Nat) : decVal (decDigits n) = n := by
  induction n using Nat.strong_induction_on with
  | _ n ih =>
    rw [decDigits]
    split
    next hlt =>
      simp [decVal, charVal_digitChar hlt]
    next hge =>
      rw [decVal_append_one, ih (n / 10) (Nat.div_lt_self (by omega) (by omega)),
        charVal_digitChar (Nat.mod_lt _ (by omega))]
      omega

theorem repr_inj {m n : Nat} (h : Nat.repr m = Nat.repr n) : m = n := by
  have hd : decDigits m = decDigits n := by
    rw [← repr_data, ← repr_data, h]
  have hv := congrArg decVal hd
  rwa [decVal_decDigits, decVal_decDigits] at hv

theorem repr_no_dash {n : Nat} {c : Char} (hc : c ∈ (Nat.repr n).data) : c ≠ '-' := by
  rw [repr_data] at hc
  have hdig := decDigits_isDigit n c hc
  intro hdash
  subst hdash
  exact absurd hdig (by decide)

theorem append_dash_inj :
    ∀ {a₁ : List Char} {a₂ b₁ b₂ : List Char}, '-' ∉ a₁ → '-' ∉ a₂ →
      a₁ ++ '-' :: b₁ = a₂ ++ '-' :: b₂ → a₁ = a₂ ∧ b₁ = b₂ := by
  intro a₁
  induction a₁ with
  | nil =>
    intro a₂ b₁ b₂ _ h₂ heq
    cases a₂ with
    | nil =>
      simp only [List.nil_append] at heq
      cases heq
      exact ⟨rfl, rfl⟩
    | cons y ys =>
      simp only [List.nil_append, List.cons_append] at heq
      cases heq
      exact absurd (List.mem_cons_self _ _) h₂
  | cons x xs ih =>
    intro a₂ b₁ b₂ h₁ h₂ heq
    cases a₂ with
    | nil =>
      simp only [List.cons_append, List.nil_append] at heq
      cases heq
      exact absurd (List.mem_cons_self _ _) h₁
    | cons y ys =>
      simp only [List.cons_append, List.cons.injEq] at heq
      obtain ⟨rfl, htail⟩ := heq
      have hx : '-' ∉ xs := fun hm => h₁ (List.mem_cons_of_mem _ hm)
      have hy : '-' ∉ ys := fun hm => h₂ (List.mem_cons_of_mem _ hm)
      obtain ⟨rfl, hb⟩ := ih hx hy htail
      exact ⟨rfl, hb⟩

theorem string_data_append (s t : String) : (s ++ t).data = s.data ++ t.data := rfl

theorem synthFindingId_inj {r₁ i₁ r₂ i₂ : Nat} {s₁ s₂ : String}
    (h : synthFindingId r₁ i₁ s₁ = synthFindingId r₂ i₂ s₂) : r₁ = r₂ ∧ i₁ = i₂ := by
  have hd := congrArg String.data h
  simp only [synthFindingId, string_data_append, List.append_assoc] at hd
  have hd' : (Nat.repr r₁).data ++ '-' :: ((Nat.repr i₁).data ++ '-' :: s₁.data) =
      (Nat.repr r₂).data ++ '-' :: ((Nat.repr i₂).data ++ '-' :: s₂.data) := by
    simpa using hd
  obtain ⟨hr, htail⟩ :=
    append_dash_inj (fun hm => repr_no_dash hm rfl) (fun hm => repr_no_dash hm rfl) hd'
  obtain ⟨hi, _⟩ :=
    append_dash_inj (fun hm => repr_no_dash hm rfl) (fun hm => repr_no_dash hm rfl) htail
  exact ⟨repr_inj (String.ext hr), repr_inj (String.ext hi)⟩

/-! # Lemmas about the findings sequence -/

theorem mapIdxFrom_take {α β : Type} (f : Nat → α → β) :
    ∀ (s n : Nat) (l : List α), (mapIdxFrom f s l).take n = mapIdxFrom f s (l.take n)
  | _, _, [] => by simp [mapIdxFrom]
  | _, 0, _ :: _ => rfl
  | s, n + 1, a :: as => by
      simp only [mapIdxFrom, List.take_succ_cons, mapIdxFrom_take f (s + 1) n as]

theorem flatten_get? {α : Type} :
    ∀ (L : List (List α)) (i j : Nat) (l : List α), L.get? i = some l →
      j < l.length →
      L.flatten.get? (((L.take i).map List.length).sum + j) = l.get? j := by
  intro L
  induction L with
  | nil => intro i j l h _; cases h
  | cons hd tl ih =>
    intro i j l h hj
    cases i with
    | zero =>
      injection h with h
      subst h
      simp only [List.take_zero, List.map_nil, List.sum_nil, Nat.zero_add,
        List.flatten_cons]
      exact List.get?_append hj
    | succ i =>
      simp only [List.take_succ_cons, List.map_cons, List.sum_cons,
        List.flatten_cons]
      rw [Nat.add_assoc, List.get?_append_right (by omega)]
      have harith : hd.length + (((tl.take i).map List.length).sum + j) -
          hd.length = ((tl.take i).map List.length).sum + j := by omega
      rw [harith]
      exact ih i j l h hj

theorem mkFinding_mem_findingsOfLog {log : SarifLog} {ri fi : Nat} {run : Run}
    {result : SarifResult} (hrun : log.runs.get? ri = some run)
    (hres : run.results.get? fi = some result) :
    mkFinding ri run.tool.driver (buildRuleMap (run.tool.driver.rules.getD [])) fi result ∈
      findingsOfLog log := by
  unfold findingsOfLog
  refine List.mem_flatten.mpr ⟨findingsOfRun ri run, ?_, ?_⟩
  · exact mem_mapIdxFrom.mpr ⟨ri, run, hrun, by simp⟩
  · unfold findingsOfRun
    exact mem_mapIdxFrom.mpr ⟨fi, result, hres, by simp⟩

theorem mem_findingsOfLog {log : SarifLog} {f : NormalizedFinding} :
    f ∈ findingsOfLog log ↔
      ∃ ri run fi result, log.runs.get? ri = some run ∧
        run.results.get? fi = some result ∧
        f = mkFinding ri run.tool.driver
          (buildRuleMap (run.tool.driver.rules.getD [])) fi result := by
  constructor
  · intro hf
    unfold findingsOfLog at hf
    rcases List.mem_flatten.mp hf with ⟨l, hl, hfl⟩
    rcases mem_mapIdxFrom.mp hl with ⟨ri, run, hrun, rfl⟩
    unfold findingsOfRun at hfl
    rcases mem_mapIdxFrom.mp hfl with ⟨fi, result, hres, rfl⟩
    exact ⟨0 + ri, run, 0 + fi, result, by simpa using hrun, by simpa using hres, rfl⟩
  · rintro ⟨ri, run, fi, result, hrun, hres, rfl⟩
    exact mkFinding_mem_findingsOfLog hrun hres

theorem length_findingsOfLog (log : SarifLog) :
    (findingsOfLog log).length = (log.runs.map (fun run => run.results.length)).sum := by
  unfold findingsOfLog
  rw [List.length_flatten, map_mapIdxFrom]
  have hcongr : mapIdxFrom (fun i run => (findingsOfRun i run).length) 0 log.runs =
      mapIdxFrom (fun _ run => run.results.length) 0 log.runs := by
    refine mapIdxFrom_congr 0 log.runs (fun i run _ => ?_)
    unfold findingsOfRun
    exact mapIdxFrom_length _ 0 run.results
  rw [hcongr, mapIdxFrom_const]

theorem findingsOfLog_get? {log : SarifLog} {ri fi : Nat} {run : Run}
    {result : SarifResult} (hrun : log.runs.get? ri = some run)
    (hres : run.results.get? fi = some result) :
    (findingsOfLog log).get?
        (((log.runs.take ri).map (fun r => r.results.length)).sum + fi) =
      some (mkFinding ri run.tool.driver
        (buildRuleMap (run.tool.driver.rules.getD [])) fi result) := by
  unfold findingsOfLog
  have houter : (mapIdxFrom findingsOfRun 0 log.runs).get? ri =
      some (findingsOfRun ri run) := by
    rw [mapIdxFrom_get?, hrun]
    simp
  have hlen : fi < (findingsOfRun ri run).length := by
    unfold findingsOfRun
    rw [mapIdxFrom_length]
    rcases List.get?_eq_some.mp hres with ⟨h, _⟩
    exact h
  have hkey := flatten_get? (mapIdxFrom findingsOfRun 0 log.runs) ri fi _ houter hlen
  have hoff :
      (((mapIdxFrom findingsOfRun 0 log.runs).take ri).map List.length).sum =
      ((log.runs.take ri).map (fun r => r.results.length)).sum := by
    rw [mapIdxFrom_take, map_mapIdxFrom]
    have hc : mapIdxFrom (fun i run => (findingsOfRun i run).length) 0
        (log.runs.take ri) =
        mapIdxFrom (fun _ run => run.results.length) 0 (log.runs.take ri) := by
      refine mapIdxFrom_congr 0 _ (fun i r _ => ?_)
      unfold findingsOfRun
      exact mapIdxFrom_length _ 0 r.results
    rw [hc, mapIdxFrom_const]
  rw [hoff] at hkey
  rw [hkey]
  unfold findingsOfRun
  rw [mapIdxFrom_get?, hres]
  simp

/-! # Lemmas about the severity counters -/

theorem severity_mem_of_normalizeSeverity (level : Option String) :
    normalizeSeverity level ∈ allowedSeverities := by
  unfold normalizeSeverity
  by_cases h : allowedSeverities.contains (strToLower (level.getD "unknown")) = true
  · rw [if_pos h]
    exact List.elem_iff.mp h
  · rw [if_neg h]
    simp [allowedSeverities]

theorem severityStats_incr_total {s : SeverityStats} {sev : String}
    (h : sev ∈ allowedSeverities) : (s.incr sev).total = s.total + 1 := by
  simp only [allowedSeverities, List.mem_cons, List.not_mem_nil, or_false] at h
  rcases h with rfl | rfl | rfl | rfl | rfl | rfl | rfl | rfl | rfl <;>
    simp [SeverityStats.incr, SeverityStats.total] <;> omega

theorem severityStats_foldl_total :
    ∀ (l : List NormalizedFinding) (init : SeverityStats),
      (∀ f ∈ l, f.severity ∈ allowedSeverities) →
      (l.foldl (fun st f => st.incr f.severity) init).total = init.total + l.length := by
  intro l
  induction l with
  | nil => intro init _; simp
  | cons f fs ih =>
    intro init h
    simp only [List.foldl_cons, List.length_cons]
    rw [ih _ (fun g hg => h g (List.mem_cons_of_mem f hg)),
      severityStats_incr_total (h f (List.mem_cons_self f fs))]
    omega

theorem findings_severity_mem {log : SarifLog} {f : NormalizedFinding}
    (hf : f ∈ findingsOfLog log) : f.severity ∈ allowedSeverities := by
  rcases mem_findingsOfLog.mp hf with ⟨ri, run, fi, result, _, _, rfl⟩
  exact severity_mem_of_normalizeSeverity _

/-! # Lemmas about the tool-name set -/

theorem mem_setAdd {s : List String} {x y : String} :
    y ∈ setAdd s x ↔ y ∈ s ∨ y = x := by
  unfold setAdd
  split
  next h =>
    have hx : x ∈ s := List.elem_iff.mp h
    constructor
    · exact Or.inl
    · rintro (hy | rfl)
      · exact hy
      · exact hx
  next => simp

theorem nodup_setAdd {s : List String} {x : String} (h : s.Nodup) :
    (setAdd s x).Nodup := by
  unfold setAdd
  split
  next => exact h
  next hc =>
    have hx : x ∉ s := fun hm => hc (List.elem_iff.mpr hm)
    simp [List.nodup_append, h, hx]

theorem mem_toolNames_foldl :
    ∀ (runs : List Run) (acc : List String) (x : String),
      x ∈ runs.foldl
        (fun acc run =>
          if run.tool.driver.name ≠ "" then setAdd acc run.tool.driver.name else acc)
        acc ↔
        x ∈ acc ∨ ∃ run ∈ runs, run.tool.driver.name = x ∧ run.tool.driver.name ≠ "" := by
  intro runs
  induction runs with
  | nil => intro acc x; simp
  | cons r rs ih =>
    intro acc x
    simp only [List.foldl_cons]
    by_cases hr : r.tool.driver.name = ""
    · rw [if_neg (by simp [hr]), ih]
      constructor
      · rintro (hy | ⟨run, hrun, hx, hne⟩)
        · exact Or.inl hy
        · exact Or.inr ⟨run, List.mem_cons_of_mem r hrun, hx, hne⟩
      · rintro (hy | ⟨run, hrun, hx, hne⟩)
        · exact Or.inl hy
        · rcases List.mem_cons.mp hrun with rfl | hrun'
          · exact absurd hr hne
          · exact Or.inr ⟨run, hrun', hx, hne⟩
    · rw [if_pos hr, ih]
      constructor
      · rintro (hy | ⟨run, hrun, hx, hne⟩)
        · rcases mem_setAdd.mp hy with hy' | rfl
          · exact Or.inl hy'
          · exact Or.inr ⟨r, List.mem_cons_self r rs, rfl, hr⟩
        · exact Or.inr ⟨run, List.mem_cons_of_mem r hrun, hx, hne⟩
      · rintro (hy | ⟨run, hrun, hx, hne⟩)
        · exact Or.inl (mem_setAdd.mpr (Or.inl hy))
        · rcases List.mem_cons.mp hrun with rfl | hrun'
          · subst hx
            exact Or.inl (mem_setAdd.mpr (Or.inr rfl))
          · exact Or.inr ⟨run, hrun', hx, hne⟩

theorem nodup_toolNames_foldl :
    ∀ (runs : List Run) (acc : List String), acc.Nodup →
      (runs.foldl
        (fun acc run =>
          if run.tool.driver.name ≠ "" then setAdd acc run.tool.driver.name else acc)
        acc).Nodup := by
  intro runs
  induction runs with
  | nil => intro acc h; exact h
  | cons r rs ih =>
    intro acc h
    simp only [List.foldl_cons]
    split
    · exact ih _ (nodup_setAdd h)
    · exact ih _ h

theorem mem_toolNamesOfLog {log : SarifLog} {x : String} :
    x ∈ toolNamesOfLog log ↔
      ∃ run ∈ log.runs, run.tool.driver.name = x ∧ run.tool.driver.name ≠ "" := by
  unfold toolNamesOfLog
  rw [mem_toolNames_foldl]
  simp

theorem nodup_toolNamesOfLog (log : SarifLog) : (toolNamesOfLog log).Nodup :=
  nodup_toolNames_foldl log.runs [] List.nodup_nil

/-! # Lemmas about the rule map -/

theorem find?_replace_self {α : Type} {k : String} {v : α} :
    ∀ (m : List (String × α)), m.any (fun e => e.1 = k) = true →
      List.find? (fun e => e.1 = k)
        (m.map (fun e => if e.1 = k then (k, v) else e)) = some (k, v) := by
  intro m
  induction m with
  | nil => intro h; simp at h
  | cons e es ih =>
    intro h
    by_cases he : e.1 = k
    · simp [List.find?, he]
    · have hes : es.any (fun e => e.1 = k) = true := by
        simp only [List.any_cons] at h
        rcases Bool.or_eq_true_iff.mp h with h1 | h2
        · exact absurd (of_decide_eq_true h1) he
        · exact h2
      simp only [List.map_cons, if_neg he, List.find?, decide_eq_false he]
      exact ih hes

theorem find?_replace_ne {α : Type} {k k' : String} {v : α} (hne : k' ≠ k) :
    ∀ (m : List (String × α)),
      List.find? (fun e => e.1 = k')
        (m.map (fun e => if e.1 = k then (k, v) else e)) =
      List.find? (fun e => e.1 = k') m := by
  intro m
  induction m with
  | nil => rfl
  | cons e es ih =>
    by_cases he : e.1 = k
    · have h1 : ¬ ((k, v).1 = k') := fun hc => hne hc.symm
      have h2 : ¬ (e.1 = k') := fun hc => hne ((he ▸ hc : k = k')).symm
      simp only [List.map_cons, if_pos he, List.find?, decide_eq_false h1,
        decide_eq_false h2]
      exact ih
    · simp only [List.map_cons, if_neg he, List.find?]
      by_cases he' : e.1 = k'
      · simp only [decide_eq_true he']
      · simp only [decide_eq_false he']
        exact ih

theorem mapGet_mapSet_self {α : Type} (m : List (String × α)) (k : String) (v : α) :
    mapGet (mapSet m k v) k = some v := by
  by_cases h : m.any (fun e => e.1 = k)
  · simp only [mapSet, h, if_true, mapGet, find?_replace_self m h]
  · simp only [mapSet, h, Bool.false_eq_true, if_false, mapGet, List.find?_append]
    have hnone : List.find? (fun e => e.1 = k) m = Option.none := by
      apply List.find?_eq_none.mpr
      intro e he hek
      exact h (List.any_eq_true.mpr ⟨e, he, hek⟩)
    simp [hnone, List.find?]

theorem mapGet_mapSet_ne {α : Type} (m : List (String × α)) (k k' : String) (v : α)
    (hne : k' ≠ k) : mapGet (mapSet m k v) k' = mapGet m k' := by
  by_cases h : m.any (fun e => e.1 = k)
  · simp only [mapSet, h, if_true, mapGet, find?_replace_ne hne m]
  · simp only [mapSet, h, Bool.false_eq_true, if_false, mapGet, List.find?_append]
    cases hf : List.find? (fun e => e.1 = k') m
    · simp only [Option.none_orElse]
      rw [List.find?_cons_of_neg _ (by simpa using fun hc : k = k' => hne hc.symm)]
      rfl
    · rfl

theorem mapGet_buildRuleMap_foldl :
    ∀ (rules : List Rule) (m : List (String × Rule)) (rid : String), rid ≠ "" →
      mapGet (rules.foldl
        (fun m rule => if rule.id ≠ "" then mapSet m rule.id rule else m) m) rid =
      match rules.reverse.find? (fun r => r.id = rid) with
      | some r => some r
      | Option.none => mapGet m rid := by
  intro rules
  induction rules with
  | nil => intro m rid _; rfl
  | cons r rs ih =>
    intro m rid hrid
    simp only [List.foldl_cons, List.reverse_cons, List.find?_append]
    rw [ih _ rid hrid]
    cases hfind : rs.reverse.find? (fun r => r.id = rid) with
    | some x => rfl
    | none =>
      by_cases hr : r.id = rid
      · simp only [List.find?, decide_eq_true hr, Option.none_or]
        rw [if_pos (by rw [hr]; exact hrid), hr]
        exact mapGet_mapSet_self m rid r
      · simp only [List.find?, decide_eq_false hr, Option.none_or]
        by_cases hrempty : r.id = ""
        · rw [if_neg (by simp [hrempty])]
        · rw [if_pos hrempty]
          exact mapGet_mapSet_ne m r.id rid r (fun hc => hr hc.symm)

theorem buildRuleMap_lookup (rules : List Rule) (rid : String) (h : rid ≠ "") :
    mapGet (buildRuleMap rules) rid = rules.reverse.find? (fun r => r.id = rid) := by
  unfold buildRuleMap
  rw [mapGet_buildRuleMap_foldl rules [] rid h]
  cases hfind : rules.reverse.find? (fun r => r.id = rid) <;> rfl

theorem mapHas_eq_isSome {α : Type} (m : List (String × α)) (k : String) :
    mapHas m k = (mapGet m k).isSome := by
  unfold mapHas mapGet
  cases hf : List.find? (fun e => e.1 = k) m with
  | none =>
    have hall := List.find?_eq_none.mp hf
    simp only [Option.isSome_none]
    rw [List.any_eq_false]
    intro e he
    exact fun hc => hall e he (by simpa using hc)
  | some e =>
    have hp := List.find?_some hf
    have hm : e ∈ m := List.mem_of_find?_eq_some hf
    simp only [Option.isSome_some]
    exact List.any_eq_true.mpr ⟨e, hm, hp⟩

theorem count_toolNamesOfLog {log : SarifLog} {run : Run} (hrun : run ∈ log.runs)
    (hne : run.tool.driver.name ≠ "") :
    (toolNamesOfLog log).count run.tool.driver.name = 1 :=
  List.count_eq_one_of_mem (nodup_toolNamesOfLog log)
    (mem_toolNamesOfLog.mpr ⟨run, hrun, rfl, hne⟩)

/-! # The validator never fails with an empty issue list -/

/-- The `v` is either a success or a failure with at least one issue. -/
def vNE {α : Type} (v : Validated α) : Prop :=
  ∀ e, v = Except.error e → e ≠ []

theorem vNE_ok {α : Type} (a : α) : vNE (vOk a) := fun _ h => nomatch h

theorem vNE_fail {α : Type} (path : List String) (msg : String) :
    vNE (vFail path msg : Validated α) := by
  intro e h
  injection h with h'
  subst h'
  simp

theorem vNE_map {α β : Type} (g : α → β) {v : Validated α} (h : vNE v) :
    vNE (Except.map g v) := by
  intro e he
  cases v with
  | error e' =>
    injection he with he'
    subst he'
    exact h _ rfl
  | ok a => nomatch he

theorem vNE_vSeq {α β : Type} {f : Validated (α → β)} {a : Validated α}
    (hf : vNE f) (ha : vNE a) : vNE (vSeq f a) := by
  intro e he
  cases f with
  | error e₁ =>
    cases a with
    | error e₂ =>
      simp only [vSeq] at he
      injection he with he'
      subst he'
      have h₁ := hf e₁ rfl
      cases e₁ with
      | nil => exact absurd rfl h₁
      | cons x xs => simp
    | ok _ =>
      simp only [vSeq] at he
      injection he with he'
      subst he'
      exact hf _ rfl
  | ok fv =>
    cases a with
    | error e₂ =>
      simp only [vSeq] at he
      injection he with he'
      subst he'
      exact ha _ rfl
    | ok _ => nomatch he

theorem vNE_vString (path : List String) (j : Json) : vNE (vString path j) := by
  cases j <;> first | exact vNE_ok _ | exact vNE_fail _ _

theorem vNE_vNumber (path : List String) (j : Json) : vNE (vNumber path j) := by
  cases j <;> first | exact vNE_ok _ | exact vNE_fail _ _

theorem vNE_vObjFields (path : List String) (j : Json) : vNE (vObjFields path j) := by
  cases j <;> first | exact vNE_ok _ | exact vNE_fail _ _

theorem vNE_vRecordAny (path : List String) (j : Json) : vNE (vRecordAny path j) := by
  cases j <;> first | exact vNE_ok _ | exact vNE_fail _ _

theorem vNE_vOptField {α : Type} (fields : List (String × Json)) (path : List String)
    (key : String) (sub : List String → Json → Validated α)
    (hsub : ∀ p j, vNE (sub p j)) : vNE (vOptField fields path key sub) := by
  unfold vOptField
  cases objGet fields key with
  | none => exact vNE_ok _
  | some j => exact vNE_map some (hsub _ _)

theorem vNE_vReqField {α : Type} (fields : List (String × Json)) (path : List String)
    (key : String) (sub : List String → Json → Validated α)
    (hsub : ∀ p j, vNE (sub p j)) : vNE (vReqField fields path key sub) := by
  unfold vReqField
  cases objGet fields key with
  | none => exact vNE_fail _ _
  | some j => exact hsub _ _

theorem vNE_vDefField {α : Type} (fields : List (String × Json)) (path : List String)
    (key : String) (dflt : α) (sub : List String → Json → Validated α)
    (hsub : ∀ p j, vNE (sub p j)) : vNE (vDefField fields path key dflt sub) := by
  unfold vDefField
  cases objGet fields key with
  | none => exact vNE_ok _
  | some j => exact hsub _ _

theorem vNE_foldl_vSeq {α β γ : Type} (g : γ → α → β → α) (h : γ → Validated β) :
    ∀ (xs : List γ) (acc : Validated α), vNE acc → (∀ x ∈ xs, vNE (h x)) →
      vNE (xs.foldl (fun a x => vSeq (Except.map (g x) a) (h x)) acc) := by
  intro xs
  induction xs with
  | nil => intro acc hacc _; exact hacc
  | cons x xs ih =>
    intro acc hacc hh
    simp only [List.foldl_cons]
    exact ih _ (vNE_vSeq (vNE_map (g x) hacc) (hh x (List.mem_cons_self x xs)))
      (fun y hy => hh y (List.mem_cons_of_mem x hy))

theorem vNE_vArray {α : Type} (sub : List String → Json → Validated α)
    (hsub : ∀ p j, vNE (sub p j)) (path : List String) (j : Json) :
    vNE (vArray sub path j) := by
  cases j with
  | arr items =>
    refine vNE_foldl_vSeq (fun (_ : Validated α) (xs : List α) (x : α) => xs ++ [x])
      (fun v : Validated α => v)
      (mapIdxFrom (fun i item => sub (path ++ [Nat.repr i]) item) 0 items)
      (vOk []) (vNE_ok []) ?_
    intro v hv
    rcases mem_mapIdxFrom.mp hv with ⟨i, item, _, rfl⟩
    exact hsub _ _
  | null => exact vNE_fail _ _
  | bool b => exact vNE_fail _ _
  | num n => exact vNE_fail _ _
  | str s => exact vNE_fail _ _
  | obj fields => exact vNE_fail _ _

theorem vNE_vRecordString (path : List String) (j : Json) :
    vNE (vRecordString path j) := by
  cases j with
  | obj fields =>
    exact vNE_foldl_vSeq
      (fun (f : String × Json) (xs : List (String × String)) (s : String) =>
        xs ++ [(f.1, s)])
      (fun f : String × Json => vString (path ++ [f.1]) f.2) fields (vOk [])
      (vNE_ok []) (fun f _ => vNE_vString _ _)
  | null => exact vNE_fail _ _
  | bool b => exact vNE_fail _ _
  | num n => exact vNE_fail _ _
  | str s => exact vNE_fail _ _
  | arr items => exact vNE_fail _ _

theorem vNE_vMessage : ∀ (path : List String) (j : Json), vNE (vMessage path j) := by
  intro path j
  unfold vMessage
  cases h : vObjFields path j with
  | error e =>
    intro e' he'
    injection he' with h2
    subst h2
    exact vNE_vObjFields path j _ h
  | ok fields =>
    exact vNE_vSeq (vNE_map _ (vNE_vOptField _ _ _ _ vNE_vString))
      (vNE_vOptField _ _ _ _ vNE_vString)

theorem vNE_vSnippet : ∀ (path : List String) (j : Json), vNE (vSnippet path j) := by
  intro path j
  unfold vSnippet
  cases h : vObjFields path j with
  | error e =>
    intro e' he'
    injection he' with h2
    subst h2
    exact vNE_vObjFields path j _ h
  | ok fields => exact vNE_map _ (vNE_vOptField _ _ _ _ vNE_vString)

theorem vNE_vRegion : ∀ (path : List String) (j : Json), vNE (vRegion path j) := by
  intro path j
  unfold vRegion
  cases h : vObjFields path j with
  | error e =>
    intro e' he'
    injection he' with h2
    subst h2
    exact vNE_vObjFields path j _ h
  | ok fields =>
    exact vNE_vSeq (vNE_vSeq (vNE_vSeq (vNE_vSeq
      (vNE_map _ (vNE_vOptField _ _ _ _ vNE_vNumber))
      (vNE_vOptField _ _ _ _ vNE_vNumber))
      (vNE_vOptField _ _ _ _ vNE_vNumber))
      (vNE_vOptField _ _ _ _ vNE_vNumber))
      (vNE_vOptField _ _ _ _ vNE_vSnippet)

theorem vNE_vArtifactLocation :
    ∀ (path : List String) (j : Json), vNE (vArtifactLocation path j) := by
  intro path j
  unfold vArtifactLocation
  cases h : vObjFields path j with
  | error e =>
    intro e' he'
    injection he' with h2
    subst h2
    exact vNE_vObjFields path j _ h
  | ok fields =>
    exact vNE_vSeq (vNE_map _ (vNE_vOptField _ _ _ _ vNE_vString))
      (vNE_vOptField _ _ _ _ vNE_vString)

theorem vNE_vPhysicalLocation :
    ∀ (path : List String) (j : Json), vNE (vPhysicalLocation path j) := by
  intro path j
  unfold vPhysicalLocation
  cases h : vObjFields path j with
  | error e =>
    intro e' he'
    injection he' with h2
    subst h2
    exact vNE_vObjFields path j _ h
  | ok fields =>
    exact vNE_vSeq (vNE_map _ (vNE_vOptField _ _ _ _ vNE_vArtifactLocation))
      (vNE_vOptField _ _ _ _ vNE_vRegion)

theorem vNE_vLocation : ∀ (path : List String) (j : Json), vNE (vLocation path j) := by
  intro path j
  unfold vLocation
  cases h : vObjFields path j with
  | error e =>
    intro e' he'
    injection he' with h2
    subst h2
    exact vNE_vObjFields path j _ h
  | ok fields =>
    exact vNE_vSeq (vNE_map _ (vNE_vOptField _ _ _ _ vNE_vPhysicalLocation))
      (vNE_vOptField _ _ _ _ vNE_vMessage)

theorem vNE_vFix : ∀ (path : List String) (j : Json), vNE (vFix path j) := by
  intro path j
  unfold vFix
  cases h : vObjFields path j with
  | error e =>
    intro e' he'
    injection he' with h2
    subst h2
    exact vNE_vObjFields path j _ h
  | ok fields => exact vNE_map _ (vNE_vOptField _ _ _ _ vNE_vMessage)

theorem vNE_vDefaultConfiguration :
    ∀ (path : List String) (j : Json), vNE (vDefaultConfiguration path j) := by
  intro path j
  unfold vDefaultConfiguration
  cases h : vObjFields path j with
  | error e =>
    intro e' he'
    injection he' with h2
    subst h2
    exact vNE_vObjFields path j _ h
  | ok fields =>
    exact vNE_vSeq (vNE_map _ (vNE_vOptField _ _ _ _ vNE_vString))
      (vNE_vOptField _ _ _ _ vNE_vString)

theorem vNE_vRule : ∀ (path : List String) (j : Json), vNE (vRule path j) := by
  intro path j
  unfold vRule
  cases h : vObjFields path j with
  | error e =>
    intro e' he'
    injection he' with h2
    subst h2
    exact vNE_vObjFields path j _ h
  | ok fields =>
    exact vNE_vSeq (vNE_vSeq (vNE_vSeq (vNE_vSeq (vNE_vSeq (vNE_vSeq (vNE_vSeq
      (vNE_map _ (vNE_vReqField _ _ _ _ vNE_vString))
      (vNE_vOptField _ _ _ _ vNE_vString))
      (vNE_vOptField _ _ _ _ vNE_vMessage))
      (vNE_vOptField _ _ _ _ vNE_vMessage))
      (vNE_vOptField _ _ _ _ vNE_vMessage))
      (vNE_vOptField _ _ _ _ vNE_vString))
      (vNE_vOptField _ _ _ _ vNE_vRecordAny))
      (vNE_vOptField _ _ _ _ vNE_vDefaultConfiguration)

theorem vNE_vResult : ∀ (path : List String) (j : Json), vNE (vResult path j) := by
  intro path j
  unfold vResult
  cases h : vObjFields path j with
  | error e =>
    intro e' he'
    injection he' with h2
    subst h2
    exact vNE_vObjFields path j _ h
  | ok fields =>
    exact vNE_vSeq (vNE_vSeq (vNE_vSeq (vNE_vSeq (vNE_vSeq (vNE_vSeq (vNE_vSeq
      (vNE_vSeq (vNE_vSeq (vNE_vSeq (vNE_vSeq (vNE_vSeq (vNE_vSeq
      (vNE_map _ (vNE_vOptField _ _ _ _ vNE_vString))
      (vNE_vOptField _ _ _ _ vNE_vNumber))
      (vNE_vReqField _ _ _ _ vNE_vMessage))
      (vNE_vOptField _ _ _ _ vNE_vString))
      (vNE_vOptField _ _ _ _ vNE_vString))
      (vNE_vOptField _ _ _ _ vNE_vString))
      (vNE_vOptField _ _ _ _ (vNE_vArray vLocation vNE_vLocation)))
      (vNE_vOptField _ _ _ _ (vNE_vArray vLocation vNE_vLocation)))
      (vNE_vOptField _ _ _ _ (vNE_vArray vFix vNE_vFix)))
      (vNE_vOptField _ _ _ _ vNE_vRecordString))
      (vNE_vOptField _ _ _ _ vNE_vRecordString))
      (vNE_vOptField _ _ _ _ vNE_vRecordAny))
      (vNE_vOptField _ _ _ _ vNE_vString))
      (vNE_vOptField _ _ _ _ vNE_vString)

theorem vNE_vDriver : ∀ (path : List String) (j : Json), vNE (vDriver path j) := by
  intro path j
  unfold vDriver
  cases h : vObjFields path j with
  | error e =>
    intro e' he'
    injection he' with h2
    subst h2
    exact vNE_vObjFields path j _ h
  | ok fields =>
    exact vNE_vSeq (vNE_vSeq (vNE_vSeq (vNE_vSeq (vNE_vSeq (vNE_vSeq
      (vNE_map _ (vNE_vReqField _ _ _ _ vNE_vString))
      (vNE_vOptField _ _ _ _ vNE_vString))
      (vNE_vOptField _ _ _ _ vNE_vString))
      (vNE_vOptField _ _ _ _ vNE_vString))
      (vNE_vOptField _ _ _ _ vNE_vString))
      (vNE_vOptField _ _ _ _ vNE_vString))
      (vNE_vOptField _ _ _ _ (vNE_vArray vRule vNE_vRule))

theorem vNE_vTool : ∀ (path : List String) (j : Json), vNE (vTool path j) := by
  intro path j
  unfold vTool
  cases h : vObjFields path j with
  | error e =>
    intro e' he'
    injection he' with h2
    subst h2
    exact vNE_vObjFields path j _ h
  | ok fields => exact vNE_map _ (vNE_vReqField _ _ _ _ vNE_vDriver)

theorem vNE_vAutomationDetails :
    ∀ (path : List String) (j : Json), vNE (vAutomationDetails path j) := by
  intro path j
  unfold vAutomationDetails
  cases h : vObjFields path j with
  | error e =>
    intro e' he'
    injection he' with h2
    subst h2
    exact vNE_vObjFields path j _ h
  | ok fields =>
    exact vNE_vSeq (vNE_map _ (vNE_vOptField _ _ _ _ vNE_vString))
      (vNE_vOptField _ _ _ _ vNE_vString)

theorem vNE_vRun : ∀ (path : List String) (j : Json), vNE (vRun path j) := by
  intro path j
  unfold vRun
  cases h : vObjFields path j with
  | error e =>
    intro e' he'
    injection he' with h2
    subst h2
    exact vNE_vObjFields path j _ h
  | ok fields =>
    exact vNE_vSeq (vNE_vSeq
      (vNE_map _ (vNE_vReqField _ _ _ _ vNE_vTool))
      (vNE_vOptField _ _ _ _ vNE_vAutomationDetails))
      (vNE_vDefField _ _ _ _ _ (vNE_vArray vResult vNE_vResult))

theorem validateSarif_ne {j : Json} {e : List Issue}
    (h : validateSarif j = Except.error e) : e ≠ [] := by
  revert h
  unfold validateSarif
  cases hobj : vObjFields [] j with
  | error e₀ =>
    intro h
    injection h with h2
    subst h2
    exact vNE_vObjFields [] j _ hobj
  | ok fields =>
    intro h
    exact vNE_vSeq (vNE_map _ (vNE_vReqField _ _ _ _ vNE_vString))
      (vNE_vReqField _ _ _ _ (vNE_vArray vRun vNE_vRun)) e h

/-! # Projections of `mkFinding` -/

theorem mkFinding_id (ri fi : Nat) (driver : Driver) (ruleMap : List (String × Rule))
    (result : SarifResult) :
    (mkFinding ri driver ruleMap fi result).id =
      result.id.getD (result.guid.getD
        (synthFindingId ri fi (result.ruleId.getD "unknown"))) := rfl

theorem mkFinding_ruleId (ri fi : Nat) (driver : Driver)
    (ruleMap : List (String × Rule)) (result : SarifResult) :
    (mkFinding ri driver ruleMap fi result).ruleId =
      ((findRuleForResult result ruleMap).map (fun r => r.id)).getD
        (result.ruleId.getD "unknown") := rfl

theorem mkFinding_severity (ri fi : Nat) (driver : Driver)
    (ruleMap : List (String × Rule)) (result : SarifResult) :
    (mkFinding ri driver ruleMap fi result).severity =
      normalizeSeverity
        (some (severityInput result (findRuleForResult result ruleMap))) := rfl

/-! # Claim theorems -/

/-- C4: for every valid input document, normalization emits exactly one
finding per result — the findings sequence length is the total number of
results over all runs, and the finding built from the result at run index
`ri`, result index `fi` sits at position (results of the earlier runs) +
`fi`, i.e. runs are processed in document order with results in order
within each run — `stats.totalFindings` equals the length of the findings
sequence, and the sum of all nine `stats.bySeverity` counters equals that
same length. -/
theorem count_invariant (log : SarifLog) (o : NormalizeSarifOptions) (t : String) :
    (normalizeLog log o t).stats.totalFindings =
      (normalizeLog log o t).findings.length ∧
    (normalizeLog log o t).stats.bySeverity.total =
      (normalizeLog log o t).findings.length ∧
    (normalizeLog log o t).findings.length =
      (log.runs.map (fun run => run.results.length)).sum ∧
    (∀ (ri fi : Nat) (run : Run) (result : SarifResult),
      log.runs.get? ri = some run → run.results.get? fi = some result →
      (normalizeLog log o t).findings.get?
          (((log.runs.take ri).map (fun r => r.results.length)).sum + fi) =
        some (mkFinding ri run.tool.driver
          (buildRuleMap (run.tool.driver.rules.getD [])) fi result)) := by
  refine ⟨rfl, ?_, length_findingsOfLog log,
    fun ri fi run result hrun hres => findingsOfLog_get? hrun hres⟩
  show (severityStatsOfLog log).total = (findingsOfLog log).length
  unfold severityStatsOfLog
  rw [severityStats_foldl_total (findingsOfLog log) initialSeverityStats
    (fun f hf => findings_severity_mem hf)]
  simp [initialSeverityStats, SeverityStats.total]

/-- Witness for C4 at the end-to-end scenario: the finding of the first
result of the first run sits at position 0 and carries its message. -/
theorem count_invariant_witness :
    ((normalizeLog exampleLog noOptions "T").findings.get? 0).map
      (fun f => f.message) = some "Found X" := by
  have h := (count_invariant exampleLog noOptions "T").2.2.2 0 0 _ _ rfl rfl
  exact (congrArg (Option.map (fun f => f.message)) h).trans rfl

/-- C7: normalization is deterministic in its content-bearing output: two
calls on the same input with the same options (the processing instant
`now` being the only thing that may differ) either fail with the same
error, or succeed with identical dedupeKey sequences, identical
per-severity counters, and the identical findings sequence (same findings
in the same order). -/
theorem normalize_deterministic (input : ParseInput) (o : NormalizeSarifOptions)
    (t₁ t₂ : String) :
    Except.map
      (fun d => (d.findings.map (fun f => f.dedupeKey), d.stats.bySeverity, d.findings))
      (normalizeSarif input o t₁) =
    Except.map
      (fun d => (d.findings.map (fun f => f.dedupeKey), d.stats.bySeverity, d.findings))
      (normalizeSarif input o t₂) := by
  unfold normalizeSarif
  cases parseSarif input <;> rfl

/-- C2: every finding's canonical severity is obtained by taking, in
priority order, the result's own level, else the resolved rule's
default-configuration level, else its default-configuration severity,
else `"unknown"`, lower-casing it, and forcing any value outside the nine
canonical severities to `"unknown"`; consequently every finding's severity
is one of the nine canonical values, and `"ERROR"`, `"Error"`, `"error"`
all normalize to `"error"` while `"banana"` normalizes to `"unknown"`. -/
theorem severity_resolution :
    (∀ (log : SarifLog) (o : NormalizeSarifOptions) (t : String) (ri fi : Nat)
        (run : Run) (result : SarifResult),
      log.runs.get? ri = some run → run.results.get? fi = some result →
      ∃ f ∈ (normalizeLog log o t).findings,
        f = mkFinding ri run.tool.driver
              (buildRuleMap (run.tool.driver.rules.getD [])) fi result ∧
        f.severity =
          (if allowedSeverities.contains
              (strToLower (result.level.getD
                ((((findRuleForResult result
                      (buildRuleMap (run.tool.driver.rules.getD []))).bind
                    (fun r => r.defaultConfiguration)).bind (fun d => d.level)).getD
                  ((((findRuleForResult result
                        (buildRuleMap (run.tool.driver.rules.getD []))).bind
                      (fun r => r.defaultConfiguration)).bind (fun d => d.severity)).getD
                    "unknown")))) then
            (strToLower (result.level.getD
              ((((findRuleForResult result
                    (buildRuleMap (run.tool.driver.rules.getD []))).bind
                  (fun r => r.defaultConfiguration)).bind (fun d => d.level)).getD
                ((((findRuleForResult result
                      (buildRuleMap (run.tool.driver.rules.getD []))).bind
                    (fun r => r.defaultConfiguration)).bind (fun d => d.severity)).getD
                  "unknown"))))
          else "unknown")) ∧
    (∀ (log : SarifLog) (o : NormalizeSarifOptions) (t : String)
        (f : NormalizedFinding),
      f ∈ (normalizeLog log o t).findings → f.severity ∈ allowedSeverities) ∧
    normalizeSeverity (some "ERROR") = "error" ∧
    normalizeSeverity (some "Error") = "error" ∧
    normalizeSeverity (some "error") = "error" ∧
    normalizeSeverity (some "banana") = "unknown" := by
  refine ⟨?_, ?_, by decide, by decide, by decide, by decide⟩
  · intro log o t ri fi run result hrun hres
    exact ⟨mkFinding ri run.tool.driver
      (buildRuleMap (run.tool.driver.rules.getD [])) fi result,
      mkFinding_mem_findingsOfLog hrun hres, rfl, rfl⟩
  · intro log o t f hf
    exact findings_severity_mem hf

/-- Witness for C2 at the spec's end-to-end scenario: the single result's
rule `RULE1` carries default level `warning`, so the finding's severity is
`"warning"`. -/
theorem severity_resolution_witness :
    ∃ f ∈ (normalizeLog exampleLog noOptions "2024-01-01").findings,
      f.severity = "warning" := by
  obtain ⟨f, hf, _, hsev⟩ :=
    severity_resolution.1 exampleLog noOptions "2024-01-01" 0 0 _ _ rfl rfl
  refine ⟨f, hf, ?_⟩
  rw [hsev]
  decide

/-- C5 (amended): a schema-validation failure raises an error distinct in
kind from a deserialization failure, with a message that enumerates every
failing field path (dot-joined, `<root>` when the path is empty) together
with the mismatch, joined into one string; a deserialization failure
propagates the underlying parser's message verbatim (it does not name a
field path); in both cases no document is returned, and every parse either
fails with an error or succeeds with a full document. -/
theorem validation_error_messages :
    (∀ (j : Json) (issues : List Issue), validateSarif j = Except.error issues →
      issues ≠ [] ∧
      parseSarif (ParseInput.value j) =
        Except.error (ParseError.schemaInvalid issues) ∧
      errorMessage (ParseError.schemaInvalid issues) =
        "SARIF формат невалиден: " ++ String.intercalate ", "
          (issues.map (fun i =>
            (if i.path.isEmpty then "<root>" else String.intercalate "." i.path) ++
              " " ++ i.message))) ∧
    (∀ (s msg : String),
      parseSarif (ParseInput.text s (Except.error msg)) =
        Except.error (ParseError.jsonSyntax msg) ∧
      errorMessage (ParseError.jsonSyntax msg) = msg) ∧
    (∀ (msg : String), errKindIndex (ParseError.jsonSyntax msg) = 1) ∧
    (∀ (issues : List Issue), errKindIndex (ParseError.schemaInvalid issues) = 2) ∧
    (∀ (input : ParseInput),
      (∃ log, parseSarif input = Except.ok log) ∨
        (∃ e, parseSarif input = Except.error e)) := by
  refine ⟨?_, fun s msg => ⟨rfl, rfl⟩, fun _ => rfl, fun _ => rfl, ?_⟩
  · intro j issues h
    refine ⟨validateSarif_ne h, ?_, rfl⟩
    show (match validateSarif j with
      | Except.ok log => Except.ok log
      | Except.error issues => Except.error (ParseError.schemaInvalid issues)) =
      Except.error (ParseError.schemaInvalid issues)
    rw [h]
  · intro input
    cases hp : parseSarif input with
    | ok log => exact Or.inl ⟨log, rfl⟩
    | error e => exact Or.inr ⟨e, rfl⟩

/-- Witness for C5: an empty object is missing both required root fields,
and the message enumerates both paths. -/
theorem validation_error_messages_witness :
    validateSarif (Json.obj []) =
      Except.error [⟨["version"], "Required"⟩, ⟨["runs"], "Required"⟩] ∧
    errorMessage (ParseError.schemaInvalid
        [⟨["version"], "Required"⟩, ⟨["runs"], "Required"⟩]) =
      "SARIF формат невалиден: version Required, runs Required" := by
  refine ⟨rfl, ?_⟩
  have h := (validation_error_messages.1 (Json.obj [])
    [⟨["version"], "Required"⟩, ⟨["runs"], "Required"⟩] rfl).2.2
  rw [h]
  rfl

/-- Counterexample for C5 as stated: for a deserialization failure the
raised message is the parser's own complaint, which does not name any
field path — in particular it does not contain the `<root>` rendering of
the empty path. -/
theorem claim_error_path_cex :
    parseSarif (ParseInput.text "\x7bnot-valid-json"
        (Except.error "Unexpected token n in JSON at position 1")) =
      Except.error (ParseError.jsonSyntax "Unexpected token n in JSON at position 1") ∧
    errorMessage (ParseError.jsonSyntax "Unexpected token n in JSON at position 1") =
      "Unexpected token n in JSON at position 1" ∧
    ¬ ("<root>".data <:+: "Unexpected token n in JSON at position 1".data) := by
  exact ⟨rfl, rfl, by decide⟩

/-- C6 (amended): only a null/undefined payload raises the empty-input
error (before any parsing); an empty string is handed to the JSON
deserializer instead and surfaces as a deserialization error; the
empty-input kind is distinct from the other two kinds, and normalization
propagates it unchanged, returning no document. -/
theorem empty_input_error :
    parseSarif ParseInput.nullInput = Except.error ParseError.payloadMissing ∧
    (∀ msg, parseSarif (ParseInput.text "" (Except.error msg)) =
      Except.error (ParseError.jsonSyntax msg)) ∧
    errKindIndex ParseError.payloadMissing = 0 ∧
    (∀ msg, errKindIndex (ParseError.jsonSyntax msg) = 1) ∧
    (∀ issues, errKindIndex (ParseError.schemaInvalid issues) = 2) ∧
    (∀ (o : NormalizeSarifOptions) (t : String),
      normalizeSarif ParseInput.nullInput o t =
        Except.error ParseError.payloadMissing) :=
  ⟨rfl, fun _ => rfl, rfl, fun _ => rfl, fun _ => rfl, fun _ _ => rfl⟩

/-- Counterexample for C6 as stated: an empty string input is not rejected
by the empty-payload guard; it reaches the JSON deserializer, and the
raised error is of the deserialization kind (index 1), not the
empty-input kind (index 0). -/
theorem claim_empty_input_cex :
    parseSarif (ParseInput.text "" (Except.error "Unexpected end of JSON input")) =
      Except.error (ParseError.jsonSyntax "Unexpected end of JSON input") ∧
    errKindIndex (ParseError.jsonSyntax "Unexpected end of JSON input") = 1 ∧
    errKindIndex ParseError.payloadMissing = 0 ∧
    ¬ (ParseError.jsonSyntax "Unexpected end of JSON input" =
        ParseError.payloadMissing) :=
  ⟨rfl, rfl, rfl, fun h => nomatch h⟩

/-- C3 (amended): a result whose (non-empty) `ruleId` is a key of the rule
lookup resolves via that key — taking precedence over any `ruleIndex` —
and the lookup is keyed by rule id with the LAST rule definition carrying
a duplicated id winning (the JavaScript `Map.set` overwrite); otherwise a
`ruleIndex` in `[0, size)` picks the rule at that position in insertion
order of the deduped lookup structure; otherwise no rule resolves. -/
theorem rule_resolution :
    (∀ (rules : List Rule) (result : SarifResult) (rid : String),
      result.ruleId = some rid → rid ≠ "" →
      mapHas (buildRuleMap rules) rid = true →
      findRuleForResult result (buildRuleMap rules) =
        rules.reverse.find? (fun r => r.id = rid)) ∧
    (∀ (rules : List Rule) (result : SarifResult) (i : Int),
      (match result.ruleId with
       | some rid => rid = "" ∨ mapHas (buildRuleMap rules) rid = false
       | Option.none => True) →
      result.ruleIndex = some i → 0 ≤ i →
      i < ((buildRuleMap rules).length : Int) →
      findRuleForResult result (buildRuleMap rules) =
        ((buildRuleMap rules).get? i.toNat).map (fun e => e.2)) ∧
    (∀ (rules : List Rule) (result : SarifResult),
      (match result.ruleId with
       | some rid => rid = "" ∨ mapHas (buildRuleMap rules) rid = false
       | Option.none => True) →
      (match result.ruleIndex with
       | some i => i < 0 ∨ ((buildRuleMap rules).length : Int) ≤ i
       | Option.none => True) →
      findRuleForResult result (buildRuleMap rules) = Option.none) := by
  refine ⟨?_, ?_, ?_⟩
  · intro rules result rid hrid hne hhas
    unfold findRuleForResult
    rw [hrid]
    simp only [decide_eq_true hne, hhas, Bool.and_self, if_true, Option.getD_some]
    exact buildRuleMap_lookup rules rid hne
  · intro rules result i hfail hidx h0 hlt
    unfold findRuleForResult
    rw [hidx]
    split
    next hcond =>
      exfalso
      cases hrid : result.ruleId with
      | none =>
        rw [hrid] at hcond
        simp at hcond
      | some rid =>
        rw [hrid] at hcond hfail
        simp only [Bool.and_eq_true, decide_eq_true_eq] at hcond
        rcases hfail with h | h
        · exact hcond.1 h
        · rw [h] at hcond
          exact absurd hcond.2 (by simp)
    next hcond =>
      simp [h0, hlt]
  · intro rules result hfail hidx
    unfold findRuleForResult
    split
    next hcond =>
      exfalso
      cases hrid : result.ruleId with
      | none =>
        rw [hrid] at hcond
        simp at hcond
      | some rid =>
        rw [hrid] at hcond hfail
        simp only [Bool.and_eq_true, decide_eq_true_eq] at hcond
        rcases hfail with h | h
        · exact hcond.1 h
        · rw [h] at hcond
          exact absurd hcond.2 (by simp)
    next hcond =>
      revert hidx
      cases hrid : result.ruleIndex with
      | none => intro _; rfl
      | some i =>
        intro hidx
        rcases hidx with h | h
        · exact if_neg (by omega)
        · exact if_neg (by omega)

/-- Witness for C3: a result carrying both a resolvable `ruleId` and a
`ruleIndex` resolves via the `ruleId` (the reverse lookup over the rule
list). -/
theorem rule_resolution_witness :
    findRuleForResult precedenceResult (buildRuleMap [dupRuleA, dupRuleB]) =
      [dupRuleA, dupRuleB].reverse.find? (fun r => r.id = "R") :=
  rule_resolution.1 [dupRuleA, dupRuleB] precedenceResult "R" rfl (by decide)
    (by decide)

/-- Counterexample for C3 as stated: with two rules sharing the id `R`
(the first named `A`, the second named `B`), a result referencing `R`
resolves to the SECOND rule — the last definition wins, not the
first-seen one. -/
theorem claim_rule_first_seen_cex :
    dupRuleA.name = some "A" ∧ dupRuleB.name = some "B" ∧
    (findRuleForResult dupResult (buildRuleMap [dupRuleA, dupRuleB])).map
      (fun r => r.name) = some (some "B") ∧
    ¬ ((findRuleForResult dupResult (buildRuleMap [dupRuleA, dupRuleB])).map
      (fun r => r.name) = some (some "A")) :=
  ⟨rfl, rfl, rfl, by decide⟩

/-- C9 (amended): every run's NON-EMPTY driver name is registered into the
document-wide distinct tool-name set (exact duplicates collapse; an
empty-string driver name is skipped by the truthiness guard), and
`metadata.toolNames` is that set in insertion order: it is duplicate-free,
a string is in it exactly when some run has it as its non-empty driver
name, and each such name occurs exactly once. -/
theorem tool_names_registration :
    (∀ (log : SarifLog) (o : NormalizeSarifOptions) (t : String) (run : Run),
      run ∈ log.runs → run.tool.driver.name ≠ "" →
      (normalizeLog log o t).metadata.toolNames.count run.tool.driver.name = 1) ∧
    (∀ (log : SarifLog) (o : NormalizeSarifOptions) (t : String) (x : String),
      x ∈ (normalizeLog log o t).metadata.toolNames ↔
        ∃ run ∈ log.runs,
          run.tool.driver.name = x ∧ run.tool.driver.name ≠ "") ∧
    (∀ (log : SarifLog) (o : NormalizeSarifOptions) (t : String),
      (normalizeLog log o t).metadata.toolNames.Nodup) := by
  refine ⟨?_, ?_, ?_⟩
  · intro log o t run hrun hne
    exact count_toolNamesOfLog hrun hne
  · intro log o t x
    exact mem_toolNamesOfLog
  · intro log o t
    exact nodup_toolNamesOfLog log

/-- Witness for C9: the end-to-end scenario's driver name occurs exactly
once in `metadata.toolNames`. -/
theorem tool_names_registration_witness :
    (normalizeLog exampleLog noOptions "T").metadata.toolNames.count
      "ExampleScanner" = 1 :=
  tool_names_registration.1 exampleLog noOptions "T" exampleRun
    (List.mem_cons_self _ _) (by decide)

/-- Counterexample for C9 as stated: a valid document whose single run has
the empty string as driver name; that name is never registered, so it
occurs zero times in `metadata.toolNames`, not exactly once. -/
theorem claim_tool_names_cex :
    emptyNameLog.runs.map (fun run => run.tool.driver.name) = [""] ∧
    (normalizeLog emptyNameLog noOptions "T").metadata.toolNames.count "" = 0 ∧
    ¬ ((normalizeLog emptyNameLog noOptions "T").metadata.toolNames.count "" = 1) :=
  ⟨rfl, rfl, by decide⟩

/-- C10: the finding's `ruleId` field is the resolved rule's `id` whenever
a rule resolves (including resolution purely via `ruleIndex`), else the
result's own `ruleId` when present, else `"unknown"`. -/
theorem finding_rule_id :
    ∀ (log : SarifLog) (o : NormalizeSarifOptions) (t : String) (ri fi : Nat)
      (run : Run) (result : SarifResult),
      log.runs.get? ri = some run → run.results.get? fi = some result →
      ∃ f ∈ (normalizeLog log o t).findings,
        f = mkFinding ri run.tool.driver
          (buildRuleMap (run.tool.driver.rules.getD [])) fi result ∧
        (∀ r, findRuleForResult result
            (buildRuleMap (run.tool.driver.rules.getD [])) = some r →
          f.ruleId = r.id) ∧
        (findRuleForResult result
            (buildRuleMap (run.tool.driver.rules.getD [])) = Option.none →
          f.ruleId = result.ruleId.getD "unknown") := by
  intro log o t ri fi run result hrun hres
  refine ⟨_, mkFinding_mem_findingsOfLog hrun hres, rfl, ?_, ?_⟩
  · intro r hr
    rw [mkFinding_ruleId, hr]
    rfl
  · intro hr
    rw [mkFinding_ruleId, hr]
    rfl

/-- Witness for C10: a result that carries no `ruleId` and resolves its
rule purely via `ruleIndex 0` reports that rule's id `R1` in its
finding. -/
theorem finding_rule_id_witness :
    ∃ f ∈ (normalizeLog indexLog noOptions "T").findings, f.ruleId = "R1" := by
  obtain ⟨f, hf, _, hsome, _⟩ :=
    finding_rule_id indexLog noOptions "T" 0 0 _ _ rfl rfl
  refine ⟨f, hf, ?_⟩
  rw [hsome (baseRule "R1") rfl]
  rfl

theorem pairwise_mapIdxFrom {α β : Type} {R : β → β → Prop} {f : Nat → α → β}
    (H : ∀ i j a b, i ≠ j → R (f i a) (f j b)) :
    ∀ (s : Nat) (l : List α), (mapIdxFrom f s l).Pairwise R := by
  intro s l
  induction l generalizing s with
  | nil => exact List.Pairwise.nil
  | cons a as ih =>
    refine List.pairwise_cons.mpr ⟨?_, ih (s + 1)⟩
    intro y hy
    rcases mem_mapIdxFrom.mp hy with ⟨i, b, _, rfl⟩
    exact H s (s + 1 + i) a b (by omega)

/-- C8: the finding's id is the result's own `id` if present, else its
`guid`, else the synthesized `` `${runIndex}-${resultIndex}-${ruleId}` ``
string; and when no result in the document supplies an `id` or `guid`,
all finding ids of one normalization call are pairwise distinct. -/
theorem finding_identity :
    (∀ (log : SarifLog) (o : NormalizeSarifOptions) (t : String) (ri fi : Nat)
        (run : Run) (result : SarifResult),
      log.runs.get? ri = some run → run.results.get? fi = some result →
      ∃ f ∈ (normalizeLog log o t).findings,
        f = mkFinding ri run.tool.driver
          (buildRuleMap (run.tool.driver.rules.getD [])) fi result ∧
        f.id = result.id.getD (result.guid.getD
          (synthFindingId ri fi (result.ruleId.getD "unknown")))) ∧
    (∀ (log : SarifLog) (o : NormalizeSarifOptions) (t : String),
      (∀ run ∈ log.runs, ∀ r ∈ run.results,
        r.id = Option.none ∧ r.guid = Option.none) →
      ((normalizeLog log o t).findings.map (fun f => f.id)).Nodup) := by
  constructor
  · intro log o t ri fi run result hrun hres
    exact ⟨_, mkFinding_mem_findingsOfLog hrun hres, rfl, rfl⟩
  · intro log o t h
    show ((findingsOfLog log).map (fun f => f.id)).Nodup
    unfold findingsOfLog
    rw [List.map_flatten, map_mapIdxFrom]
    have hrw : mapIdxFrom
        (fun ri run => (findingsOfRun ri run).map (fun f => f.id)) 0 log.runs =
        mapIdxFrom (fun ri run => mapIdxFrom
          (fun fi r => synthFindingId ri fi (r.ruleId.getD "unknown"))
          0 run.results) 0 log.runs := by
      apply mapIdxFrom_congr
      intro ri run hrun
      simp only [findingsOfRun]
      rw [map_mapIdxFrom]
      apply mapIdxFrom_congr
      intro fi r hr
      rw [mkFinding_id, (h run hrun r hr).1, (h run hrun r hr).2]
      rfl
    rw [hrw]
    refine List.nodup_flatten.mpr ⟨?_, ?_⟩
    · intro l hl
      rcases mem_mapIdxFrom.mp hl with ⟨ri, run, _, rfl⟩
      exact nodup_mapIdxFrom
        (fun i j a b hij heq => hij (synthFindingId_inj heq).2) 0 _
    · refine pairwise_mapIdxFrom ?_ 0 log.runs
      intro i j a b hij x hx hy
      rcases mem_mapIdxFrom.mp hx with ⟨fi, r, _, rfl⟩
      rcases mem_mapIdxFrom.mp hy with ⟨fj, r₂, _, heq⟩
      exact hij (synthFindingId_inj heq).1

/-- Witness for C8: a two-run document with three id-less, guid-less
results gets pairwise distinct synthesized finding ids. -/
theorem finding_identity_witness :
    ((normalizeLog twoRunLog noOptions "T").findings.map (fun f => f.id)).Nodup :=
  finding_identity.2 twoRunLog noOptions "T" (by decide)

/-- C1 (amended): every finding's dedupeKey is the lower-case hex SHA-256
digest of the `"::"`-joined concatenation of: the RESULT'S OWN ruleId (not
the resolved rule's id) or `"unknown"` when absent, the canonical
severity, the resolved message text, the location file or empty, start
line or empty, start column or empty, and the JSON-serialized list of the
up-to-four candidate fingerprints taken in priority order from
`partialFingerprints` and `fingerprints` with absent AND EMPTY-STRING
values omitted (the `filter(Boolean)`); two dedupe inputs identical in all
these parts produce the same key, and at concrete inputs changing the
primary-location fingerprint changes the key. -/
theorem dedupe_key_spec :
    (∀ (log : SarifLog) (o : NormalizeSarifOptions) (t : String) (ri fi : Nat)
        (run : Run) (result : SarifResult),
      log.runs.get? ri = some run → run.results.get? fi = some result →
      ∃ f ∈ (normalizeLog log o t).findings,
        f = mkFinding ri run.tool.driver
          (buildRuleMap (run.tool.driver.rules.getD [])) fi result ∧
        f.dedupeKey = sha256HexOfString (String.intercalate "::"
          [result.ruleId.getD "unknown",
           f.severity,
           f.message,
           (f.location.bind (fun l => l.file)).getD "",
           strOfOptInt (f.location.bind (fun l => l.startLine)),
           strOfOptInt (f.location.bind (fun l => l.startColumn)),
           jsonStringifyStrings
             (([recGet (result.partialFingerprints.getD [])
                  "primaryLocationFingerprint",
                recGet (result.partialFingerprints.getD [])
                  "primaryLocationFingerprint/v2",
                recGet (result.fingerprints.getD [])
                  "primaryLocationFingerprint",
                recGet (result.fingerprints.getD [])
                  "primaryLocationFingerprint/v2"].filterMap id).filter
               (fun s => s ≠ ""))])) ∧
    (∀ (i₁ i₂ : DedupeInput),
      i₁.result.ruleId = i₂.result.ruleId →
      i₁.severity = i₂.severity →
      i₁.message = i₂.message →
      i₁.location.bind (fun l => l.file) = i₂.location.bind (fun l => l.file) →
      i₁.location.bind (fun l => l.startLine) =
        i₂.location.bind (fun l => l.startLine) →
      i₁.location.bind (fun l => l.startColumn) =
        i₂.location.bind (fun l => l.startColumn) →
      recGet i₁.partialFingerprints "primaryLocationFingerprint" =
        recGet i₂.partialFingerprints "primaryLocationFingerprint" →
      recGet i₁.partialFingerprints "primaryLocationFingerprint/v2" =
        recGet i₂.partialFingerprints "primaryLocationFingerprint/v2" →
      recGet (i₁.result.fingerprints.getD []) "primaryLocationFingerprint" =
        recGet (i₂.result.fingerprints.getD []) "primaryLocationFingerprint" →
      recGet (i₁.result.fingerprints.getD []) "primaryLocationFingerprint/v2" =
        recGet (i₂.result.fingerprints.getD []) "primaryLocationFingerprint/v2" →
      buildDedupeKey i₁ = buildDedupeKey i₂) ∧
    ¬ (buildDedupeKey (fpInput "abc") = buildDedupeKey (fpInput "abd")) := by
  refine ⟨?_, ?_, by decide⟩
  · intro log o t ri fi run result hrun hres
    exact ⟨_, mkFinding_mem_findingsOfLog hrun hres, rfl, rfl⟩
  · intro i₁ i₂ h₁ h₂ h₃ h₄ h₅ h₆ h₇ h₈ h₉ h₁₀
    simp only [buildDedupeKey, candidateFingerprints, h₁, h₂, h₃, h₄, h₅, h₆,
      h₇, h₈, h₉, h₁₀]

/-- Witness for C1 at the end-to-end scenario: the single finding's
dedupeKey is the SHA-256 of
`RULE1::warning::Found X::src/a.ts::10::::[]`. -/
theorem dedupe_key_spec_witness :
    ∃ f ∈ (normalizeLog exampleLog noOptions "T").findings,
      f.dedupeKey = sha256HexOfString (String.intercalate "::"
        ["RULE1", "warning", "Found X", "src/a.ts", "10", "", "[]"]) := by
  obtain ⟨f, hf, hfeq, hkey⟩ :=
    dedupe_key_spec.1 exampleLog noOptions "T" 0 0 _ _ rfl rfl
  refine ⟨f, hf, ?_⟩
  rw [hkey, hfeq]
  rfl

/-- Counterexample for C1 as stated: a result that resolves its rule
purely via `ruleIndex` (finding.ruleId = `R1`) and carries an EMPTY
primary-location partial fingerprint; the actual dedupeKey hashes the
result's own (absent → `"unknown"`) ruleId and drops the empty
fingerprint, so it differs from the digest the claim prescribes (resolved
ruleId `R1`, fingerprint list `[""]`). -/
theorem claim_dedupe_key_cex :
    ((normalizeLog indexLog noOptions "T").findings.map
      (fun f => (f.ruleId, f.dedupeKey))) =
      [("R1", sha256HexOfString (String.intercalate "::"
        ["unknown", "unknown", "", "", "", "", "[]"]))] ∧
    ¬ (sha256HexOfString (String.intercalate "::"
        ["unknown", "unknown", "", "", "", "", "[]"]) =
       sha256HexOfString (String.intercalate "::"
        ["R1", "unknown", "", "", "", "", jsonStringifyStrings [""]])) ∧
    ¬ (sha256HexOfString (String.intercalate "::"
        ["unknown", "unknown", "", "", "", "", "[]"]) =
       sha256HexOfString (String.intercalate "::"
        ["unknown", "unknown", "", "", "", "", jsonStringifyStrings [""]])) :=
  ⟨rfl, by decide, by decide⟩

end Sarif
